import Mathlib

/-!
Shallow embedding of the deployment orchestrator in
`11-10-2026/deploy.py` and `11-10-2026/infrastructure/*.py`.

The SQLite-backed store of `infrastructure/state.py` is modelled as an
in-memory pair of row lists; boto3 clients are modelled as oracles
(records of response functions), and each embedded operation returns its
provider-call trace alongside its result, so that "zero mutating calls",
call ordering and retry counts become statements about the trace.
-/

namespace Orchestrator

/-- A row of the `resources` table (state.py, `init_db`):
`(deployment_id, resource_type, resource_id)` is the unique key;
`metadata` is the parsed JSON dictionary. -/
structure ResourceRow where
  deployment_id : String
  resource_type : String
  resource_id : String
  resource_name : Option String := none
  metadata : List (String × String) := []
  deriving Repr, DecidableEq

/-- A row of the `deployments` table. `created_at` stands for the ISO
timestamp text; ISO timestamps compare chronologically as strings, so we
model them as naturals with the same order. -/
structure DeploymentRow where
  environment : String
  deployment_id : String
  created_at : Nat
  status : String
  deriving Repr, DecidableEq

/-- The durable store: the two tables, rows in insertion order. -/
structure Store where
  deployments : List DeploymentRow := []
  resources : List ResourceRow := []
  deriving Repr, DecidableEq

/-- `state.add_resource`: `INSERT OR REPLACE` keyed on the unique triple
(deployment_id, resource_type, resource_id).  SQLite's REPLACE deletes a
conflicting row and appends the fresh one. -/
def add_resource (st : Store) (deployment_id resource_type resource_id : String)
    (resource_name : Option String := none)
    (metadata : List (String × String) := []) : Store :=
  { st with resources :=
      (st.resources.filter (fun r =>
        ¬(r.deployment_id = deployment_id ∧ r.resource_type = resource_type ∧
          r.resource_id = resource_id))) ++
      [{ deployment_id := deployment_id, resource_type := resource_type,
         resource_id := resource_id, resource_name := resource_name,
         metadata := metadata }] }

/-- `state.get_resources` with a type filter. -/
def get_resources_typed (st : Store) (deployment_id resource_type : String) :
    List ResourceRow :=
  st.resources.filter (fun r =>
    r.deployment_id = deployment_id ∧ r.resource_type = resource_type)

/-- `state.get_resources` without a type filter. -/
def get_resources (st : Store) (deployment_id : String) : List ResourceRow :=
  st.resources.filter (fun r => r.deployment_id = deployment_id)

/-- `state.get_resource_by_type`: first matching row or absent. -/
def get_resource_by_type (st : Store) (deployment_id resource_type : String) :
    Option ResourceRow :=
  (get_resources_typed st deployment_id resource_type).head?

/-- `state.get_deployment_id`: the most recently created deployment for
the environment whose status is exactly `completed`
(`WHERE environment = ? AND status = 'completed' ORDER BY created_at DESC
LIMIT 1`). Ties keep the earlier row. -/
def get_deployment_id (st : Store) (environment : String) : Option String :=
  let completed := st.deployments.filter (fun d =>
    d.environment = environment ∧ d.status = "completed")
  (completed.foldl (fun acc d =>
      match acc with
      | none => some d
      | some a => if d.created_at > a.created_at then some d else some a)
    none).map (fun d => d.deployment_id)

/-- `state.delete_deployment`: removes all resource rows, then the
deployment row. -/
def delete_deployment (st : Store) (deployment_id : String) : Store :=
  { deployments := st.deployments.filter (fun d => d.deployment_id ≠ deployment_id),
    resources := st.resources.filter (fun r => r.deployment_id ≠ deployment_id) }

/-- `state.get_all_deployments`: rows with status in
{completed, in_progress}. (The DESC ordering is irrelevant to the bulk
destroy, which reduces the result to a sorted set of environment names.) -/
def get_all_deployments (st : Store) : List DeploymentRow :=
  st.deployments.filter (fun d =>
    d.status = "completed" ∨ d.status = "in_progress")

end Orchestrator

namespace Orchestrator

/-- A botocore `ClientError`, reduced to its machine-readable code. -/
structure ClientErr where
  code : String
  deriving Repr, DecidableEq

/-- Provider calls issued by `infrastructure/vpc.py::create_vpc`. -/
inductive VpcCall
  | describeVpcs (vpcId : String)
  | createVpc (cidr : String)
  | modifyVpcAttr (vpcId attr : String)
  | createIgw
  | attachIgw (igwId vpcId : String)
  | createSubnet (vpcId cidr az : String)
  | modifySubnetAttr (subnetId : String)
  | createRouteTable (vpcId : String)
  | createRoute (rtId : String)
  | associateRouteTable (rtId subnetId : String)
  | createSecurityGroup (groupName vpcId : String)
  | authorizeIngress (sgId : String)
  deriving Repr, DecidableEq

/-- Only `describe_vpcs` is a read; every other EC2 call in `create_vpc`
mutates provider state. -/
def VpcCall.mutating : VpcCall → Bool
  | .describeVpcs _ => false
  | _ => true

/-- Oracle for the EC2 client as used by `create_vpc`: one response
function per API, `Except ClientErr` mirroring success payload vs raised
`ClientError`.  `describe_vpcs` answers with the length of the `Vpcs`
list. -/
structure VpcOracle where
  describe_vpcs : String → Except ClientErr Nat
  create_vpc : String → Except ClientErr String
  modify_vpc_attribute : String → String → Except ClientErr Unit
  create_internet_gateway : Except ClientErr String
  attach_internet_gateway : String → String → Except ClientErr Unit
  create_subnet : String → String → Except ClientErr String
  modify_subnet_attribute : String → Except ClientErr Unit
  create_route_table : String → Except ClientErr String
  create_route : String → Except ClientErr Unit
  associate_route_table : String → String → Except ClientErr Unit
  create_security_group : String → String → Except ClientErr String
  authorize_security_group_ingress : String → Except ClientErr Unit

/-- The `subnets` entries of the `vpc` config section. -/
structure SubnetCfg where
  cidr : String
  az : String
  deriving Repr, DecidableEq

/-- The `vpc` config section (`config['vpc']`). -/
structure VpcConfig where
  cidr : String
  subnets : List SubnetCfg := []
  environment : Option String := none
  deriving Repr, DecidableEq

/-- The dictionary `create_vpc` returns. -/
structure VpcInfo where
  vpc_id : String
  subnets : List String
  alb_sg_id : String
  ec2_sg_id : String
  deriving Repr, DecidableEq

/-- Result of a `create_vpc` invocation: the returned dict or the raised
exception message, the store after all committed writes, and the provider
call trace. -/
structure VpcRun where
  result : Except String VpcInfo
  store : Store
  trace : List VpcCall
  deriving Repr

/-- The raised `Exception(f"Failed to create VPC: {e}")` path. -/
def vpcFail (st : Store) (tr : List VpcCall) (e : ClientErr) : VpcRun :=
  { result := .error ("Failed to create VPC: " ++ e.code), store := st, trace := tr }

/-- The security-group scan of vpc.py lines 15-22: `existing_alb_sg`
starts as the *first* security-group row of the deployment, then the loop
overwrites it with any row named `alb-sg` and sets `existing_ec2_sg` from
any row named `ec2-sg`. -/
def sgScan (sgs : List ResourceRow) : Option ResourceRow × Option ResourceRow :=
  sgs.foldl
    (fun (p : Option ResourceRow × Option ResourceRow) sg =>
      if sg.resource_name = some "alb-sg" then (some sg, p.2)
      else if sg.resource_name = some "ec2-sg" then (p.1, some sg)
      else p)
    (sgs.head?, none)

/-- The per-subnet creation loop of vpc.py lines 67-89: create the
subnet, enable public IPs on it, record it, accumulate its id. -/
def createSubnetsGo (o : VpcOracle) (vpc_id environment deployment_id : String) :
    List SubnetCfg → Store → List VpcCall → List String →
    Store × List VpcCall × Except ClientErr (List String)
  | [], st, tr, acc => (st, tr, .ok acc)
  | cfg :: rest, st, tr, acc =>
    match o.create_subnet cfg.cidr cfg.az with
    | .error e => (st, tr ++ [.createSubnet vpc_id cfg.cidr cfg.az], .error e)
    | .ok subnet_id =>
      let tr₁ := tr ++ [.createSubnet vpc_id cfg.cidr cfg.az]
      match o.modify_subnet_attribute subnet_id with
      | .error e => (st, tr₁ ++ [.modifySubnetAttr subnet_id], .error e)
      | .ok _ =>
        let st₁ := add_resource st deployment_id "subnet" subnet_id
          (some ("webapp-subnet-" ++ cfg.az))
        createSubnetsGo o vpc_id environment deployment_id rest st₁
          (tr₁ ++ [.modifySubnetAttr subnet_id]) (acc ++ [subnet_id])

/-- The route-table association loop of vpc.py lines 100-104. -/
def associateGo (o : VpcOracle) (rt_id : String) :
    List String → List VpcCall → List VpcCall × Except ClientErr Unit
  | [], tr => (tr, .ok ())
  | subnet_id :: rest, tr =>
    match o.associate_route_table rt_id subnet_id with
    | .error e => (tr ++ [.associateRouteTable rt_id subnet_id], .error e)
    | .ok _ => associateGo o rt_id rest (tr ++ [.associateRouteTable rt_id subnet_id])

/-- The creation path of `create_vpc` (vpc.py lines 35-161), entered when
no reusable record set was found: VPC, DNS attributes, internet gateway,
subnets, route table with default route and associations, and the two
security groups, each recorded in the store immediately after creation. -/
def create_vpc_fresh (o : VpcOracle) (st : Store) (cfg : VpcConfig)
    (environment deployment_id : String) (tr0 : List VpcCall) : VpcRun :=
  match o.create_vpc cfg.cidr with
  | .error e => vpcFail st (tr0 ++ [.createVpc cfg.cidr]) e
  | .ok vpc_id =>
    let tr₁ := tr0 ++ [.createVpc cfg.cidr]
    match o.modify_vpc_attribute vpc_id "EnableDnsHostnames" with
    | .error e => vpcFail st (tr₁ ++ [.modifyVpcAttr vpc_id "EnableDnsHostnames"]) e
    | .ok _ =>
      let tr₂ := tr₁ ++ [.modifyVpcAttr vpc_id "EnableDnsHostnames"]
      match o.modify_vpc_attribute vpc_id "EnableDnsSupport" with
      | .error e => vpcFail st (tr₂ ++ [.modifyVpcAttr vpc_id "EnableDnsSupport"]) e
      | .ok _ =>
        let tr₃ := tr₂ ++ [.modifyVpcAttr vpc_id "EnableDnsSupport"]
        let st₁ := add_resource st deployment_id "vpc" vpc_id
          (some ("webapp-vpc-" ++ cfg.environment.getD "dev"))
        match o.create_internet_gateway with
        | .error e => vpcFail st₁ (tr₃ ++ [.createIgw]) e
        | .ok igw_id =>
          let tr₄ := tr₃ ++ [.createIgw]
          match o.attach_internet_gateway igw_id vpc_id with
          | .error e => vpcFail st₁ (tr₄ ++ [.attachIgw igw_id vpc_id]) e
          | .ok _ =>
            let tr₅ := tr₄ ++ [.attachIgw igw_id vpc_id]
            let st₂ := add_resource st₁ deployment_id "internet_gateway" igw_id
            match createSubnetsGo o vpc_id environment deployment_id cfg.subnets st₂ tr₅ [] with
            | (st₃, tr₆, .error e) => vpcFail st₃ tr₆ e
            | (st₃, tr₆, .ok subnets) =>
              match o.create_route_table vpc_id with
              | .error e => vpcFail st₃ (tr₆ ++ [.createRouteTable vpc_id]) e
              | .ok rt_id =>
                let tr₇ := tr₆ ++ [.createRouteTable vpc_id]
                match o.create_route rt_id with
                | .error e => vpcFail st₃ (tr₇ ++ [.createRoute rt_id]) e
                | .ok _ =>
                  let tr₈ := tr₇ ++ [.createRoute rt_id]
                  match associateGo o rt_id subnets tr₈ with
                  | (tr₉, .error e) => vpcFail st₃ tr₉ e
                  | (tr₉, .ok _) =>
                    let st₄ := add_resource st₃ deployment_id "route_table" rt_id
                    match o.create_security_group ("webapp-alb-sg-" ++ environment) vpc_id with
                    | .error e =>
                      vpcFail st₄ (tr₉ ++ [.createSecurityGroup ("webapp-alb-sg-" ++ environment) vpc_id]) e
                    | .ok alb_sg_id =>
                      let trA := tr₉ ++ [.createSecurityGroup ("webapp-alb-sg-" ++ environment) vpc_id]
                      match o.authorize_security_group_ingress alb_sg_id with
                      | .error e => vpcFail st₄ (trA ++ [.authorizeIngress alb_sg_id]) e
                      | .ok _ =>
                        let trB := trA ++ [.authorizeIngress alb_sg_id]
                        let st₅ := add_resource st₄ deployment_id "security_group" alb_sg_id
                          (some "alb-sg")
                        match o.create_security_group ("webapp-ec2-sg-" ++ environment) vpc_id with
                        | .error e =>
                          vpcFail st₅ (trB ++ [.createSecurityGroup ("webapp-ec2-sg-" ++ environment) vpc_id]) e
                        | .ok ec2_sg_id =>
                          let trC := trB ++ [.createSecurityGroup ("webapp-ec2-sg-" ++ environment) vpc_id]
                          match o.authorize_security_group_ingress ec2_sg_id with
                          | .error e => vpcFail st₅ (trC ++ [.authorizeIngress ec2_sg_id]) e
                          | .ok _ =>
                            let trD := trC ++ [.authorizeIngress ec2_sg_id]
                            let st₆ := add_resource st₅ deployment_id "security_group" ec2_sg_id
                              (some "ec2-sg")
                            { result := .ok
                                { vpc_id := vpc_id, subnets := subnets,
                                  alb_sg_id := alb_sg_id, ec2_sg_id := ec2_sg_id },
                              store := st₆, trace := trD }

/-- `infrastructure/vpc.py::create_vpc`.  Reuse path (lines 7-33): if a
`vpc` row exists and `describe_vpcs` confirms a live VPC, and the store
also holds subnet rows, at least one security-group row and one named
`ec2-sg`, return the recorded identifiers with no further call; in every
other case fall through to `create_vpc_fresh`. -/
def create_vpc_run (o : VpcOracle) (st : Store) (cfg : VpcConfig)
    (environment deployment_id : String) : VpcRun :=
  match get_resource_by_type st deployment_id "vpc" with
  | none => create_vpc_fresh o st cfg environment deployment_id []
  | some existing_vpc =>
    let probeTr := [VpcCall.describeVpcs existing_vpc.resource_id]
    match o.describe_vpcs existing_vpc.resource_id with
    | .error _ => create_vpc_fresh o st cfg environment deployment_id probeTr
    | .ok n =>
      if n = 0 then create_vpc_fresh o st cfg environment deployment_id probeTr
      else
        let existing_subnets := get_resources_typed st deployment_id "subnet"
        let sgs := get_resources_typed st deployment_id "security_group"
        match existing_subnets.isEmpty, (sgScan sgs).1, (sgScan sgs).2 with
        | false, some albsg, some ec2sg =>
          { result := .ok
              { vpc_id := existing_vpc.resource_id,
                subnets := existing_subnets.map (fun s => s.resource_id),
                alb_sg_id := albsg.resource_id,
                ec2_sg_id := ec2sg.resource_id },
            store := st, trace := probeTr }
        | _, _, _ => create_vpc_fresh o st cfg environment deployment_id probeTr

end Orchestrator

namespace Orchestrator

/-- A load balancer as described by ELBv2 responses: its ARN and DNS
name. -/
structure AlbDesc where
  arn : String
  dns : String
  deriving Repr, DecidableEq

/-- Provider calls issued by `infrastructure/alb.py::create_alb`. -/
inductive AlbCall
  | describeLBsByArn (arn : String)
  | createLB (name : String)
  | describeLBsByName (name : String)
  | createTG (name : String)
  | describeTGsByName (name : String)
  | createListener (albArn tgArn : String)
  deriving Repr, DecidableEq

/-- The describe calls are reads; the create calls mutate provider
state. -/
def AlbCall.mutating : AlbCall → Bool
  | .describeLBsByArn _ => false
  | .describeLBsByName _ => false
  | _ => true

/-- Oracle for the ELBv2 client as used by `create_alb`.  `gen_suffix`
models the successive draws of `generate_suffix()` (random 8-char
strings), indexed by draw order. -/
structure AlbOracle where
  describe_lbs_by_arn : String → Except ClientErr (List AlbDesc)
  create_load_balancer : String → Except ClientErr AlbDesc
  describe_lbs_by_name : String → Except ClientErr (List AlbDesc)
  create_target_group : String → Except ClientErr String
  describe_tgs_by_name : String → Except ClientErr (List String)
  create_listener : String → String → Except ClientErr String
  gen_suffix : Nat → String

/-- The dictionary `create_alb` returns. -/
structure AlbInfo where
  alb_arn : String
  alb_dns : String
  target_group_arn : String
  deriving Repr, DecidableEq

/-- Result of a `create_alb` invocation. -/
structure AlbRun where
  result : Except String AlbInfo
  store : Store
  trace : List AlbCall
  deriving Repr

/-- The raised `Exception(f"Failed to create ALB: {e}")` path. -/
def albFail (st : Store) (tr : List AlbCall) (e : ClientErr) : AlbRun :=
  { result := .error ("Failed to create ALB: " ++ e.code), store := st, trace := tr }

/-- The target-group and listener sections of `create_alb` (alb.py lines
89-152), shared by every path that settled on a live load balancer. -/
def create_alb_tail (o : AlbOracle) (st : Store) (vpc_id : String)
    (environment deployment_id : String) (alb_arn alb_dns : String)
    (k : Nat) (tr : List AlbCall) : AlbRun :=
  let tgStep :
      Store × List AlbCall × Except ClientErr String :=
    match get_resource_by_type st deployment_id "target_group" with
    | some existing_tg => (st, tr, .ok existing_tg.resource_id)
    | none =>
      let tg_name := "webapp-tg-" ++ environment ++ "-" ++ o.gen_suffix k
      match o.create_target_group tg_name with
      | .ok tg_arn =>
        (add_resource st deployment_id "target_group" tg_arn (some tg_name),
         tr ++ [.createTG tg_name], .ok tg_arn)
      | .error e =>
        if e.code = "DuplicateTargetGroupName" then
          match o.describe_tgs_by_name tg_name with
          | .ok (tg_arn :: _) =>
            (add_resource st deployment_id "target_group" tg_arn (some tg_name),
             tr ++ [.createTG tg_name, .describeTGsByName tg_name], .ok tg_arn)
          | .ok [] =>
            (st, tr ++ [.createTG tg_name, .describeTGsByName tg_name], .error e)
          | .error e2 =>
            (st, tr ++ [.createTG tg_name, .describeTGsByName tg_name], .error e2)
        else (st, tr ++ [.createTG tg_name], .error e)
  match tgStep with
  | (st₁, tr₁, .error e) => albFail st₁ tr₁ e
  | (st₁, tr₁, .ok tg_arn) =>
    match get_resource_by_type st₁ deployment_id "listener" with
    | some _ =>
      { result := .ok { alb_arn := alb_arn, alb_dns := alb_dns, target_group_arn := tg_arn },
        store := st₁, trace := tr₁ }
    | none =>
      match o.create_listener alb_arn tg_arn with
      | .ok listener_arn =>
        { result := .ok { alb_arn := alb_arn, alb_dns := alb_dns, target_group_arn := tg_arn },
          store := add_resource st₁ deployment_id "listener" listener_arn,
          trace := tr₁ ++ [.createListener alb_arn tg_arn] }
      | .error e =>
        if e.code = "DuplicateListener" then
          { result := .ok { alb_arn := alb_arn, alb_dns := alb_dns, target_group_arn := tg_arn },
            store := st₁, trace := tr₁ ++ [.createListener alb_arn tg_arn] }
        else albFail st₁ (tr₁ ++ [.createListener alb_arn tg_arn]) e

/-- The load-balancer creation/adoption section of `create_alb` (alb.py
lines 35-87), entered when the reuse path did not return. -/
def create_alb_fresh (o : AlbOracle) (st : Store) (vpc_id : String)
    (environment deployment_id : String) (tr0 : List AlbCall) : AlbRun :=
  let alb_name := "webapp-alb-" ++ environment ++ "-" ++ o.gen_suffix 0
  match o.create_load_balancer alb_name with
  | .ok d =>
    create_alb_tail o
      (add_resource st deployment_id "alb" d.arn (some alb_name) [("dns_name", d.dns)])
      vpc_id environment deployment_id d.arn d.dns 1 (tr0 ++ [.createLB alb_name])
  | .error e =>
    if e.code = "DuplicateLoadBalancerName" then
      match o.describe_lbs_by_name alb_name with
      | .ok (a :: _) =>
        create_alb_tail o
          (add_resource st deployment_id "alb" a.arn (some alb_name) [("dns_name", a.dns)])
          vpc_id environment deployment_id a.arn a.dns 1
          (tr0 ++ [.createLB alb_name, .describeLBsByName alb_name])
      | other =>
        let tr₁ := tr0 ++ [.createLB alb_name, .describeLBsByName alb_name]
        let alb_name2 := "webapp-alb-" ++ environment ++ "-" ++ o.gen_suffix 1
        match o.create_load_balancer alb_name2 with
        | .ok d =>
          create_alb_tail o
            (add_resource st deployment_id "alb" d.arn (some alb_name2) [("dns_name", d.dns)])
            vpc_id environment deployment_id d.arn d.dns 2 (tr₁ ++ [.createLB alb_name2])
        | .error e2 => albFail st (tr₁ ++ [.createLB alb_name2]) e2
    else albFail st (tr0 ++ [.createLB alb_name]) e

/-- `infrastructure/alb.py::create_alb`.  Reuse path (lines 14-33): if an
`alb` row exists, its probe confirms a live load balancer *and* a
`target_group` row exists, return the recorded ARNs (taking the DNS name
from the probe response) with no further call; otherwise fall through to
creation/adoption. -/
def create_alb_run (o : AlbOracle) (st : Store) (vpc_id : String)
    (environment deployment_id : String) : AlbRun :=
  match get_resource_by_type st deployment_id "alb" with
  | none => create_alb_fresh o st vpc_id environment deployment_id []
  | some existing_alb =>
    let probeTr := [AlbCall.describeLBsByArn existing_alb.resource_id]
    match o.describe_lbs_by_arn existing_alb.resource_id with
    | .error _ => create_alb_fresh o st vpc_id environment deployment_id probeTr
    | .ok [] => create_alb_fresh o st vpc_id environment deployment_id probeTr
    | .ok (a :: _) =>
      match get_resource_by_type st deployment_id "target_group" with
      | some existing_tg =>
        { result := .ok
            { alb_arn := existing_alb.resource_id, alb_dns := a.dns,
              target_group_arn := existing_tg.resource_id },
          store := st, trace := probeTr }
      | none => create_alb_fresh o st vpc_id environment deployment_id probeTr

end Orchestrator

namespace Orchestrator

/-- Provider calls issued by `infrastructure/asg.py::create_launch_template`. -/
inductive LtCall
  | describeImages
  | createLaunchTemplate (name : String)
  | describeLaunchTemplates (name : String)
  deriving Repr, DecidableEq

/-- Oracle for the EC2 client as used by `create_launch_template`.
`describe_images` answers with `(ImageId, CreationDate)` pairs (dates as
naturals with the chronological order); `describe_launch_templates`
answers with the raw response dictionary — an association list from the
response key to the list of template ids under it (real AWS responses
carry the key `"LaunchTemplates"`). -/
structure LtOracle where
  describe_images : Except ClientErr (List (String × Nat))
  create_launch_template : String → Except ClientErr String
  describe_launch_templates : String → Except ClientErr (List (String × List String))

/-- Result of a `create_launch_template` invocation: the template id or
the raised exception message. -/
structure LtRun where
  result : Except String String
  store : Store
  trace : List LtCall
  deriving Repr

/-- `asg.py::get_latest_amazon_linux_ami`: newest image by
`CreationDate`, `Exception` when the describe fails or lists nothing. -/
def get_latest_amazon_linux_ami (o : LtOracle) : Except String String :=
  match o.describe_images with
  | .error e => .error ("Failed to get AMI: " ++ e.code)
  | .ok imgs =>
    match (imgs.foldl (fun acc i =>
        match acc with
        | none => some i
        | some a => if i.2 > a.2 then some i else some a) none) with
    | none => .error "No Amazon Linux 2 AMI found"
    | some best => .ok best.1

/-- `infrastructure/asg.py::create_launch_template` (lines 34-91).  On an
`InvalidLaunchTemplateName.AlreadyExistsException` conflict the code
looks the template up by name and reads the response under the key
`"LaunchTemplate"` (`existing['LaunchTemplate'][0]['LaunchTemplateId']`);
a key absent from the response dictionary raises `KeyError`, which no
handler in asg.py catches. -/
def create_launch_template_run (o : LtOracle) (st : Store)
    (environment deployment_id : String) : LtRun :=
  let template_name := "webapp-lt-" ++ environment
  match get_latest_amazon_linux_ami o with
  | .error msg => { result := .error msg, store := st, trace := [.describeImages] }
  | .ok _ =>
    match o.create_launch_template template_name with
    | .ok template_id =>
      { result := .ok template_id,
        store := add_resource st deployment_id "launch_template" template_id
          (some template_name),
        trace := [.describeImages, .createLaunchTemplate template_name] }
    | .error e =>
      let tr := [LtCall.describeImages, .createLaunchTemplate template_name]
      if e.code = "InvalidLaunchTemplateName.AlreadyExistsException" then
        match o.describe_launch_templates template_name with
        | .error e2 =>
          { result := .error ("ClientError: " ++ e2.code), store := st,
            trace := tr ++ [.describeLaunchTemplates template_name] }
        | .ok responseDict =>
          match responseDict.lookup "LaunchTemplate" with
          | none =>
            { result := .error "KeyError: LaunchTemplate", store := st,
              trace := tr ++ [.describeLaunchTemplates template_name] }
          | some [] =>
            { result := .error "IndexError: list index out of range", store := st,
              trace := tr ++ [.describeLaunchTemplates template_name] }
          | some (template_id :: _) =>
            { result := .ok template_id,
              store := add_resource st deployment_id "launch_template" template_id
                (some template_name),
              trace := tr ++ [.describeLaunchTemplates template_name] }
      else
        { result := .error ("Failed to create launch template: " ++ e.code),
          store := st, trace := tr }

end Orchestrator

namespace Orchestrator

/-- Provider calls issued by `deploy.py::destroy`. -/
inductive DCall
  | delete (rtype target : String)
  | updateAsgCapacity (name : String)
  | describeAsg (name : String)
  | describeLB (arn : String)
  | describeNI (vpcId : String)
  | detachIgw (igwId vpcId : String)
  deriving Repr, DecidableEq

/-- A provider response to a single mutating call: success, a raised
botocore `ClientError` with its code, or any other raised exception. -/
inductive PResp
  | ok
  | clientError (code : String)
  | otherError (msg : String)
  deriving Repr, DecidableEq

/-- Oracle for the clients used by `destroy`.  Responses that the code
consults inside a polling or retry loop are indexed by the poll/attempt
number.  `describe_auto_scaling_groups` answers `none` when the reply
lists no group, `some n` for a group with `n` instances;
`describe_load_balancers` answers whether the describe succeeds (the
load balancer is still listed) — `false` models the `ClientError` that
ends the wait; `describe_network_interfaces` answers the number of
interfaces listed. -/
structure DestroyOracle where
  delete_policy : String → PResp
  delete_alarms : String → PResp
  update_auto_scaling_group : String → PResp
  describe_auto_scaling_groups : String → Nat → Except ClientErr (Option Nat)
  delete_auto_scaling_group : String → PResp
  delete_launch_template : String → PResp
  delete_listener : String → PResp
  delete_target_group : String → PResp
  delete_load_balancer : String → PResp
  describe_load_balancers : String → Nat → Bool
  delete_security_group : String → Nat → PResp
  describe_network_interfaces : String → Nat → Nat
  delete_route_table : String → Nat → PResp
  delete_subnet : String → Nat → PResp
  detach_internet_gateway : String → String → Nat → PResp
  delete_internet_gateway : String → Nat → PResp
  delete_vpc : String → Nat → PResp

/-- Outcome of the ASG instance-drain loop (deploy.py lines 465-472):
`drained k` — the `while True` loop exited after `k` describe calls;
`raised` — a describe call raised; `outOfFuel` — the loop was still
running after `fuel` polls (the source loop has no bound of its own). -/
inductive DrainOut
  | drained (polls : Nat)
  | raised (e : ClientErr) (polls : Nat)
  | outOfFuel
  deriving Repr, DecidableEq

/-- The `while True` drain loop of deploy.py lines 465-472, polling until
the reply lists no group or zero instances.  The source loop is
unbounded; `fuel` only truncates the model's observation of it. -/
def asgDrainGo (poll : Nat → Except ClientErr (Option Nat)) (k : Nat) :
    Nat → DrainOut
  | 0 => .outOfFuel
  | fuel+1 =>
    match poll k with
    | .error e => .raised e (k+1)
    | .ok none => .drained (k+1)
    | .ok (some 0) => .drained (k+1)
    | .ok (some (_+1)) => asgDrainGo poll (k+1) fuel

/-- Entry point of the drain loop. -/
def asgDrain (poll : Nat → Except ClientErr (Option Nat)) (fuel : Nat) : DrainOut :=
  asgDrainGo poll 0 fuel

/-- The bounded ALB-deletion wait of deploy.py lines 510-520
(`max_wait = 30`, 5-second ticks, so at most 6 describe polls; a
`ClientError` from the describe ends the wait early).  Returns the number
of describe calls made. -/
def albWaitGo (alive : Nat → Bool) (k : Nat) : Nat → Nat
  | 0 => 0
  | fuel+1 => if alive k then 1 + albWaitGo alive (k+1) fuel else 1

/-- Number of describe polls of the ALB-deletion wait. -/
def albWaitPolls (alive : Nat → Bool) : Nat :=
  albWaitGo alive 0 6

/-- The body polls of the bounded network-interface wait of deploy.py
lines 547-563 (`max_wait = 60`, 5-second ticks, so at most 12 body
polls after the initial describe). -/
def niWaitGo (count : Nat → Nat) (k : Nat) : Nat → Nat
  | 0 => 0
  | fuel+1 => if count k = 0 then 0 else 1 + niWaitGo count (k+1) fuel

/-- Total describe calls of the network-interface wait: the initial
describe, plus the loop's polls when interfaces were listed. -/
def niWaitPolls (count : Nat → Nat) : Nat :=
  1 + (if count 0 = 0 then 0 else niWaitGo count 0 12)

/-- How a bounded-retry delete loop ended: the delete succeeded; a
`ClientError` was logged and the loop moved on; a non-`ClientError`
exception escaped the loop's handler (aborting the destroy); or the
`for` loop ran out of iterations (unreachable while `maxRetries ≥ 1`). -/
inductive RWhy
  | success
  | loggedErr (code : String)
  | aborted (msg : String)
  | fellThrough
  deriving Repr, DecidableEq

/-- Result of a bounded-retry delete loop: how many delete calls were
issued and why it stopped. -/
structure RetryRes where
  attempts : Nat
  why : RWhy
  deriving Repr, DecidableEq

/-- The `for attempt in range(max_retries)` delete-retry loop used for
security groups, route tables, subnets and the VPC (deploy.py lines
529-541 and analogues): retry on `DependencyViolation` while attempts
remain, log-and-break on any other `ClientError` or on the final
attempt; a non-`ClientError` exception escapes. -/
def retryGo (resp : Nat → PResp) (maxRetries : Nat) : Nat → Nat → RetryRes
  | _, 0 => ⟨0, .fellThrough⟩
  | attempt, fuel+1 =>
    match resp attempt with
    | .ok => ⟨1, .success⟩
    | .clientError code =>
      if code = "DependencyViolation" ∧ attempt < maxRetries - 1 then
        let r := retryGo resp maxRetries (attempt+1) fuel
        ⟨r.attempts + 1, r.why⟩
      else ⟨1, .loggedErr code⟩
    | .otherError msg => ⟨1, .aborted msg⟩

/-- Entry point of the delete-retry loop. -/
def retryDel (resp : Nat → PResp) (maxRetries : Nat) : RetryRes :=
  retryGo resp maxRetries 0 maxRetries

/-- A destroy-stage outcome: the calls it made and, when an exception
escaped its handlers, the propagated message. -/
abbrev StageOut := List DCall × Option String

/-- Sequencing of destroy stages inside the enclosing `try`: once a stage
propagates an exception, later stages do not run. -/
def seqT (a b : StageOut) : StageOut :=
  match a.2 with
  | some _ => a
  | none => (a.1 ++ b.1, b.2)

/-- Scaling-policy deletes (deploy.py lines 436-446): issued only when an
`asg` row supplied a group name, keyed by the policy's stored name; every
exception is caught and logged. -/
def policyStage (asg_name : Option String) (rows : List ResourceRow) : List DCall :=
  match asg_name with
  | none => []
  | some _ => rows.map (fun p => .delete "scaling_policy" (p.resource_name.getD ""))

/-- A delete-per-row stage whose handler catches every exception
(alarms, launch templates, listeners, target groups). -/
def simpleDelStage (rtype : String) (rows : List ResourceRow) : List DCall :=
  rows.map (fun r => .delete rtype r.resource_id)

/-- The ASG stage (deploy.py lines 456-479): scale to zero, drain, then
delete the group.  None of these calls sits inside a `try`, so any raised
error propagates out of `destroy`. -/
def asgStage (o : DestroyOracle) (fuel : Nat) (asg_rows : List ResourceRow) : StageOut :=
  match asg_rows.head? with
  | none => ([], none)
  | some a =>
    let name := a.resource_id
    match o.update_auto_scaling_group name with
    | .clientError c => ([.updateAsgCapacity name], some ("ClientError: " ++ c))
    | .otherError m => ([.updateAsgCapacity name], some m)
    | .ok =>
      match asgDrain (o.describe_auto_scaling_groups name) fuel with
      | .raised e polls =>
        ([DCall.updateAsgCapacity name] ++ (List.range polls).map (fun _ => .describeAsg name),
         some ("ClientError: " ++ e.code))
      | .outOfFuel =>
        ([DCall.updateAsgCapacity name] ++ (List.range fuel).map (fun _ => .describeAsg name),
         some "model: drain loop still polling at fuel bound")
      | .drained polls =>
        let tr := [DCall.updateAsgCapacity name] ++
          (List.range polls).map (fun _ => DCall.describeAsg name)
        match o.delete_auto_scaling_group name with
        | .ok => (tr ++ [.delete "asg" name], none)
        | .clientError c => (tr ++ [.delete "asg" name], some ("ClientError: " ++ c))
        | .otherError m => (tr ++ [.delete "asg" name], some m)

/-- The ALB stage (deploy.py lines 505-522): delete each load balancer
and, when the delete succeeded, poll the bounded deletion wait; every
exception is caught and logged. -/
def albStage (o : DestroyOracle) : List ResourceRow → List DCall
  | [] => []
  | alb :: rest =>
    match o.delete_load_balancer alb.resource_id with
    | .ok =>
      DCall.delete "alb" alb.resource_id ::
        ((List.range (albWaitPolls (o.describe_load_balancers alb.resource_id))).map
          (fun _ => DCall.describeLB alb.resource_id) ++ albStage o rest)
    | _ => DCall.delete "alb" alb.resource_id :: albStage o rest

/-- A bounded-retry delete stage over a resource list (security groups,
route tables, subnets, the VPC): each row runs `retryDel`; a
non-`ClientError` escape stops the walk. -/
def retryStage (resp : String → Nat → PResp) (rtype : String) :
    List ResourceRow → StageOut
  | [] => ([], none)
  | r :: rest =>
    let res := retryDel (resp r.resource_id) 5
    let tr := List.replicate res.attempts (DCall.delete rtype r.resource_id)
    match res.why with
    | .aborted msg => (tr, some msg)
    | _ => seqT (tr, none) (retryStage resp rtype rest)

/-- The network-interface wait stage (deploy.py lines 547-563), entered
only when a `vpc` row exists; its exceptions are caught. -/
def niWaitStage (o : DestroyOracle) (vpc_id : Option String) : List DCall :=
  match vpc_id with
  | none => []
  | some v =>
    (List.range (niWaitPolls (o.describe_network_interfaces v))).map
      (fun _ => DCall.describeNI v)

/-- One internet gateway's detach-then-delete retry loop (deploy.py lines
598-626): a detach failure other than `Gateway.NotAttached` retries the
whole attempt (re-raising on the last one); the delete retries on
`DependencyViolation`; non-`ClientError` exceptions escape. -/
def igwGo (o : DestroyOracle) (igw : String) (vpc_id : Option String)
    (maxRetries : Nat) : Nat → Nat → StageOut
  | _, 0 => ([], none)
  | attempt, fuel+1 =>
    let detachStep : List DCall × Option (Option String) :=
      match vpc_id with
      | none => ([], none)
      | some v =>
        match o.detach_internet_gateway igw v attempt with
        | .ok => ([.detachIgw igw v], none)
        | .clientError c =>
          if c = "Gateway.NotAttached" then ([.detachIgw igw v], none)
          else if attempt < maxRetries - 1 then ([.detachIgw igw v], some none)
          else ([.detachIgw igw v], some none)
        | .otherError m => ([.detachIgw igw v], some (some m))
    match detachStep with
    | (tr, some none) =>
      if attempt < maxRetries - 1 then
        let r := igwGo o igw vpc_id maxRetries (attempt+1) fuel
        (tr ++ r.1, r.2)
      else (tr, none)
    | (tr, some (some m)) => (tr, some m)
    | (tr, none) =>
      match o.delete_internet_gateway igw attempt with
      | .ok => (tr ++ [.delete "internet_gateway" igw], none)
      | .clientError c =>
        if c = "DependencyViolation" ∧ attempt < maxRetries - 1 then
          let r := igwGo o igw vpc_id maxRetries (attempt+1) fuel
          (tr ++ [.delete "internet_gateway" igw] ++ r.1, r.2)
        else (tr ++ [.delete "internet_gateway" igw], none)
      | .otherError m => (tr ++ [.delete "internet_gateway" igw], some m)

/-- The internet-gateway stage (deploy.py lines 596-626). -/
def igwStage (o : DestroyOracle) (vpc_id : Option String) :
    List ResourceRow → StageOut
  | [] => ([], none)
  | igw :: rest =>
    seqT (igwGo o igw.resource_id vpc_id 5 0 5) (igwStage o vpc_id rest)

/-- Result of a `destroy` invocation: the store afterwards, the provider
call trace, and `some msg` when the walk re-raised an exception (the
store is then left untouched). -/
structure DestroyOut where
  store : Store
  trace : List DCall
  result : Option String
  deriving Repr

/-- `deploy.py::destroy`: resolve the deployment by name (completed rows
only) — absent means an immediate return with no provider call;
otherwise walk the stages in the fixed source order and, when no
exception escaped, delete the deployment's store rows. -/
def destroy_run (o : DestroyOracle) (st : Store) (fuel : Nat)
    (environment : String) : DestroyOut :=
  match get_deployment_id st environment with
  | none => { store := st, trace := [], result := none }
  | some deployment_id =>
    let resources := get_resources st deployment_id
    let rowsOf := fun (t : String) => resources.filter (fun r => r.resource_type = t)
    let asg_rows := rowsOf "asg"
    let asg_name := asg_rows.head?.map (fun r => r.resource_id)
    let vpc_id := (rowsOf "vpc").head?.map (fun r => r.resource_id)
    let walk :=
      seqT (policyStage asg_name (rowsOf "scaling_policy"), none)
      (seqT (simpleDelStage "cloudwatch_alarm" (rowsOf "cloudwatch_alarm"), none)
      (seqT (asgStage o fuel asg_rows)
      (seqT (simpleDelStage "launch_template" (rowsOf "launch_template"), none)
      (seqT (simpleDelStage "listener" (rowsOf "listener"), none)
      (seqT (simpleDelStage "target_group" (rowsOf "target_group"), none)
      (seqT (albStage o (rowsOf "alb"), none)
      (seqT (retryStage o.delete_security_group "security_group" (rowsOf "security_group"))
      (seqT (niWaitStage o vpc_id, none)
      (seqT (retryStage o.delete_route_table "route_table" (rowsOf "route_table"))
      (seqT (retryStage o.delete_subnet "subnet" (rowsOf "subnet"))
      (seqT (igwStage o vpc_id (rowsOf "internet_gateway"))
            (retryStage o.delete_vpc "vpc" (rowsOf "vpc")))))))))))))
    match walk.2 with
    | some msg => { store := st, trace := walk.1, result := some msg }
    | none =>
      { store := delete_deployment st deployment_id, trace := walk.1, result := none }

end Orchestrator

namespace Orchestrator

/-- A network interface as described by EC2: its id, the instance of its
attachment (when attached to one), and the attachment id. -/
structure NIDesc where
  id : String
  instance_id : Option String := none
  attachment_id : Option String := none
  deriving Repr, DecidableEq

/-- Oracle for `deploy.py::destroy_vpc_and_resources`.  Describe calls
answer `Except ClientErr`; mutating calls answer `PResp` so that a
non-`ClientError` exception (e.g. a `WaiterError`) can escape to the
routine's outermost handler.  `delete_vpc` and `cleanup_nis` are indexed
by the attempt of the final retry loop; `ni_poll` gives the interface
count seen by the bounded release wait. -/
structure DvrOracle where
  describe_load_balancers : Except ClientErr (List (String × String))
  delete_load_balancer : String → PResp
  describe_target_groups : Except ClientErr (List (String × String))
  delete_target_group : String → PResp
  describe_subnets : Except ClientErr (List String)
  delete_subnet : String → PResp
  describe_route_tables : Except ClientErr (List (String × Bool))
  delete_route_table : String → PResp
  describe_security_groups : Except ClientErr (List (String × String))
  delete_security_group : String → PResp
  describe_internet_gateways : Except ClientErr (List String)
  detach_internet_gateway : String → PResp
  delete_internet_gateway : String → PResp
  describe_network_interfaces : Except ClientErr (List NIDesc)
  describe_instance_state : String → Except ClientErr String
  terminate_instances : String → PResp
  waiter_instance_terminated : String → PResp
  delete_network_interface : String → Nat → PResp
  ni_poll : Nat → Nat
  delete_vpc : Nat → PResp
  cleanup_nis : Nat → Except ClientErr (List NIDesc)
  detach_ni : String → PResp
  delete_ni_cleanup : String → PResp

/-- A delete-every-item loop whose handler catches `ClientError` and
lets any other exception escape (the subnet/route-table/security-group
and load-balancer/target-group loops of `destroy_vpc_and_resources`).
`false` means an exception escaped to the outer handler. -/
def dvrDelLoop (del : String → PResp) : List String → Bool
  | [] => true
  | x :: rest =>
    match del x with
    | .otherError _ => false
    | _ => dvrDelLoop del rest

/-- The internet-gateway loop of `destroy_vpc_and_resources` (lines
728-739): detach then delete inside one `try`; a detach `ClientError`
skips the delete. -/
def dvrIgwLoop (o : DvrOracle) : List String → Bool
  | [] => true
  | g :: rest =>
    match o.detach_internet_gateway g with
    | .otherError _ => false
    | .clientError _ => dvrIgwLoop o rest
    | .ok =>
      match o.delete_internet_gateway g with
      | .otherError _ => false
      | _ => dvrIgwLoop o rest

/-- Handling of one listed network interface (lines 750-805): terminate
its attached instance when present and not already terminating (waiting
via the EC2 waiter, whose `WaiterError` is not a `ClientError` and so
escapes), then delete the interface, retrying once on
`InvalidParameterValue`. -/
def dvrNiOne (o : DvrOracle) (ni : NIDesc) : Bool :=
  let instanceStep :=
    match ni.instance_id with
    | none => true
    | some iid =>
      match o.describe_instance_state iid with
      | .error _ => true
      | .ok st =>
        if st = "terminated" ∨ st = "shutting-down" then true
        else
          match o.terminate_instances iid with
          | .otherError _ => false
          | .clientError _ => true
          | .ok =>
            match o.waiter_instance_terminated iid with
            | .otherError _ => false
            | _ => true
  if !instanceStep then false
  else
    match o.delete_network_interface ni.id 0 with
    | .ok => true
    | .otherError _ => false
    | .clientError c =>
      if c = "InvalidParameterValue" then
        match o.delete_network_interface ni.id 1 with
        | .otherError _ => false
        | _ => true
      else true

/-- The per-interface loop over a listing. -/
def dvrNiLoop (o : DvrOracle) : List NIDesc → Bool
  | [] => true
  | ni :: rest => if dvrNiOne o ni then dvrNiLoop o rest else false

/-- The interface cleanup run inside the final VPC-delete retry (lines
843-858): force-detach when attached, then delete, `ClientError`s
swallowed per interface. A detach `ClientError` skips that interface's
delete. -/
def dvrCleanupLoop (o : DvrOracle) : List NIDesc → Bool
  | [] => true
  | ni :: rest =>
    match ni.attachment_id with
    | some _ =>
      match o.detach_ni ni.id with
      | .otherError _ => false
      | .clientError _ => dvrCleanupLoop o rest
      | .ok =>
        match o.delete_ni_cleanup ni.id with
        | .otherError _ => false
        | _ => dvrCleanupLoop o rest
    | none =>
      match o.delete_ni_cleanup ni.id with
      | .otherError _ => false
      | _ => dvrCleanupLoop o rest

/-- The final VPC-delete retry loop (lines 833-864): up to 3 attempts,
re-trying only on `DependencyViolation` after attempting to clear the
remaining interfaces; success returns `true`, anything else `false`. -/
def dvrVpcRetry (o : DvrOracle) (attempt : Nat) : Nat → Bool
  | 0 => false
  | fuel+1 =>
    match o.delete_vpc attempt with
    | .ok => true
    | .otherError _ => false
    | .clientError c =>
      if c = "DependencyViolation" ∧ attempt < 2 then
        match o.cleanup_nis attempt with
        | .error _ => false
        | .ok nis =>
          if dvrCleanupLoop o nis then dvrVpcRetry o (attempt+1) fuel else false
      else false

/-- `deploy.py::destroy_vpc_and_resources`: the self-contained deep
teardown of one VPC.  Its whole body sits in a `try/except Exception`
that returns `False`, so the routine always returns a flag and never
raises. -/
def destroy_vpc_and_resources (o : DvrOracle) (vpc_id : String) : Bool :=
  match o.describe_load_balancers with
  | .error _ => false
  | .ok albs =>
    let vpc_albs := (albs.filter (fun a => a.2 = vpc_id)).map (fun a => a.1)
    if !dvrDelLoop o.delete_load_balancer vpc_albs then false
    else
      let tgOk :=
        if vpc_albs.isEmpty then some true
        else
          match o.describe_target_groups with
          | .error _ => none
          | .ok tgs =>
            some (dvrDelLoop o.delete_target_group
              ((tgs.filter (fun t => t.2 = vpc_id)).map (fun t => t.1)))
      match tgOk with
      | none => false
      | some false => false
      | some true =>
        match o.describe_subnets with
        | .error _ => false
        | .ok subnets =>
          if !dvrDelLoop o.delete_subnet subnets then false
          else
            match o.describe_route_tables with
            | .error _ => false
            | .ok rts =>
              if !dvrDelLoop o.delete_route_table
                  ((rts.filter (fun r => ¬r.2)).map (fun r => r.1)) then false
              else
                match o.describe_security_groups with
                | .error _ => false
                | .ok sgs =>
                  if !dvrDelLoop o.delete_security_group
                      ((sgs.filter (fun s => s.2 ≠ "default")).map (fun s => s.1)) then false
                  else
                    match o.describe_internet_gateways with
                    | .error _ => false
                    | .ok igws =>
                      if !dvrIgwLoop o igws then false
                      else
                        match o.describe_network_interfaces with
                        | .error _ => false
                        | .ok nis =>
                          if nis.isEmpty then dvrVpcRetry o 0 3
                          else if !dvrNiLoop o nis then false
                          else dvrVpcRetry o 0 3

end Orchestrator

namespace Orchestrator

/-- Oracle for `deploy.py::destroy_all`: the two account VPC listings
(ids), the typed confirmation string, the per-environment clients handed
to the per-deployment `destroy`, and the per-pass, per-VPC clients handed
to the deep teardown. -/
structure DAOracle where
  describe_vpcs1 : List String
  describe_vpcs2 : List String
  confirm : String
  env_destroy : String → DestroyOracle
  env_fuel : Nat
  dvr : Nat → String → DvrOracle

/-- Result of a `destroy_all` invocation: the store afterwards, the
environments the per-deployment destroy ran for (in order), the VPC ids
passed to the deep teardown (in order, both passes), the collected
failures, and whether the run stopped before doing anything. -/
structure DARun where
  store : Store
  envsDestroyed : List String
  deepCalls : List String
  failed_vpcs : List String
  cancelled : Bool
  nothingFound : Bool
  deriving Repr

/-- Python's `str.lower`, as a computation on the character list. -/
def pyLower (s : String) : String := ⟨s.data.map Char.toLower⟩

/-- The VPC ids referenced by the store's active deployments
(`destroy_all`, lines 880-887). -/
def tracked_vpc_ids (st : Store) : List String :=
  (get_all_deployments st).filterMap
    (fun d => (get_resource_by_type st d.deployment_id "vpc").map
      (fun r => r.resource_id))

/-- `deploy.py::destroy_all` (lines 870-955): collect tracked VPC ids
from the store, list the account's VPCs dropping only ids equal to the
literal string `"default"`, confirm, run the per-deployment destroy per
tracked environment (exceptions caught), deep-teardown every listed VPC
not in the tracked set collecting failures, then re-list and re-try every
remaining non-`"default"` id not already marked failed. -/
def destroy_all_run (o : DAOracle) (st : Store) : DARun :=
  let all_deployments := get_all_deployments st
  let all_vpc_ids := o.describe_vpcs1.filter (fun v => v ≠ "default")
  if all_deployments.isEmpty ∧ all_vpc_ids.isEmpty then
    { store := st, envsDestroyed := [], deepCalls := [], failed_vpcs := [],
      cancelled := false, nothingFound := true }
  else if pyLower o.confirm ≠ "yes" then
    { store := st, envsDestroyed := [], deepCalls := [], failed_vpcs := [],
      cancelled := true, nothingFound := false }
  else
    let environments :=
      ((all_deployments.map (fun d => d.environment)).eraseDups).mergeSort
        (fun a b => a ≤ b)
    let envFold := environments.foldl
      (fun (acc : Store × List String) env =>
        let r := destroy_run (o.env_destroy env) acc.1 o.env_fuel env
        (r.store, acc.2 ++ [env]))
      (st, [])
    if all_vpc_ids.isEmpty then
      { store := envFold.1, envsDestroyed := envFold.2, deepCalls := [],
        failed_vpcs := [], cancelled := false, nothingFound := false }
    else
      let firstPass := all_vpc_ids.foldl
        (fun (acc : List String × List String) v =>
          if v ∈ tracked_vpc_ids st then acc
          else
            let ok := destroy_vpc_and_resources (o.dvr 0 v) v
            (acc.1 ++ [v], if ok then acc.2 else acc.2 ++ [v]))
        ([], [])
      let remaining := o.describe_vpcs2.filter
        (fun v => v ≠ "default" ∧ v ∉ firstPass.2)
      let secondPass := remaining.foldl
        (fun (acc : List String × List String) v =>
          let ok := destroy_vpc_and_resources (o.dvr 1 v) v
          (acc.1 ++ [v],
           if ¬ok ∧ v ∉ acc.2 then acc.2 ++ [v] else acc.2))
        ([], firstPass.2)
      { store := envFold.1, envsDestroyed := envFold.2,
        deepCalls := firstPass.1 ++ secondPass.1,
        failed_vpcs := secondPass.2, cancelled := false, nothingFound := false }

/-- `deploy.py::status` up to its target resolution (lines 255-261): the
deployment is resolved through `get_deployment_id`; when none is found
the command prints and returns before any client is even constructed.
The remainder of the command (diagnostics against the provider) is an
arbitrary continuation over the resolved deployment id, so the theorem
about the guard holds for every possible remainder. -/
def status_run {α : Type} (st : Store) (environment : String)
    (rest : String → List α) : List α :=
  match get_deployment_id st environment with
  | none => []
  | some deployment_id => rest deployment_id

end Orchestrator

namespace Orchestrator

/-- Shorthand for a resource row of deployment `d1`. -/
def mkRow (t i : String) (n : Option String := none) : ResourceRow :=
  { deployment_id := "d1", resource_type := t, resource_id := i, resource_name := n }

/-- A store as left by one completed `deploy(env="dev")`: one row per
created resource, in creation order, plus the completed deployment
row. -/
def S0 : Store :=
  { deployments := [⟨"dev", "d1", 0, "completed"⟩],
    resources :=
      [mkRow "vpc" "vpc-1" (some "webapp-vpc-dev"),
       mkRow "internet_gateway" "igw-1",
       mkRow "subnet" "sub-1" (some "webapp-subnet-a"),
       mkRow "route_table" "rt-1",
       mkRow "security_group" "sg-alb" (some "alb-sg"),
       mkRow "security_group" "sg-ec2" (some "ec2-sg"),
       { deployment_id := "d1", resource_type := "alb", resource_id := "arn-alb",
         resource_name := some "webapp-alb-dev-abc",
         metadata := [("dns_name", "dns-1")] },
       mkRow "target_group" "arn-tg" (some "webapp-tg-dev-abc"),
       mkRow "listener" "arn-lis",
       mkRow "key_pair" "webapp-key-dev" (some "webapp-key-dev"),
       mkRow "launch_template" "lt-1" (some "webapp-lt-dev"),
       mkRow "asg" "webapp-asg-dev" (some "webapp-asg-dev"),
       mkRow "scaling_policy" "arn-pol" (some "webapp-scale-out-dev"),
       mkRow "cloudwatch_alarm" "webapp-cpu-high-dev" (some "webapp-cpu-high-dev"),
       mkRow "cloudwatch_alarm" "webapp-cpu-low-dev" (some "webapp-cpu-low-dev")] }

/-- A provider that answers every destroy-walk call with success and
reports the ASG drained and the interfaces released at the first poll. -/
def okDestroyOracle : DestroyOracle where
  delete_policy := fun _ => .ok
  delete_alarms := fun _ => .ok
  update_auto_scaling_group := fun _ => .ok
  describe_auto_scaling_groups := fun _ _ => .ok (some 0)
  delete_auto_scaling_group := fun _ => .ok
  delete_launch_template := fun _ => .ok
  delete_listener := fun _ => .ok
  delete_target_group := fun _ => .ok
  delete_load_balancer := fun _ => .ok
  describe_load_balancers := fun _ _ => false
  delete_security_group := fun _ _ => .ok
  describe_network_interfaces := fun _ _ => 0
  delete_route_table := fun _ _ => .ok
  delete_subnet := fun _ _ => .ok
  detach_internet_gateway := fun _ _ _ => .ok
  delete_internet_gateway := fun _ _ => .ok
  delete_vpc := fun _ _ => .ok

/-- The claimed fixed creation stage order, written with the repository's
`resource_type` strings: network→`vpc`, gateway→`internet_gateway`,
subnets→`subnet`, route-table→`route_table`,
security-groups→`security_group`, key-pair→`key_pair`,
launch-template→`launch_template`, target-group→`target_group`,
load-balancer→`alb`, listener→`listener`, autoscaling-group→`asg`,
scaling-policies→`scaling_policy`, alarms→`cloudwatch_alarm`. -/
def claimCreationOrder : List String :=
  ["vpc", "internet_gateway", "subnet", "route_table", "security_group",
   "key_pair", "launch_template", "target_group", "alb", "listener",
   "asg", "scaling_policy", "cloudwatch_alarm"]

/-- The resource types of the delete calls of a trace, in issue order. -/
def deleteTypes (calls : List DCall) : List String :=
  calls.filterMap fun c =>
    match c with
    | .delete t _ => some t
    | _ => none

/-- Positions at which a type's deletes occur in a delete-type
sequence. -/
def deletePositions (ds : List String) (t : String) : List Nat :=
  (ds.enum.filter (fun p => p.2 = t)).map (fun p => p.1)

/-- Every position of `xs` lies strictly before every position of
`ys`. -/
def allBefore (xs ys : List Nat) : Bool :=
  xs.all (fun x => ys.all (fun y => x < y))

/-- Formalisation of the C2 claim over a destroy trace, for a deploy that
created the given types: for every pair of types ordered by the claimed
creation order, every delete of the later-created type is issued before
any delete of the earlier-created type, and every created type has at
least one delete. -/
def claimOrderOK (created : List String) (calls : List DCall) : Bool :=
  let ds := deleteTypes calls
  (claimCreationOrder.all fun t =>
    !(created.contains t) || !(deletePositions ds t).isEmpty) &&
  (claimCreationOrder.enum.all fun a =>
    claimCreationOrder.enum.all fun b =>
      !(decide (a.1 < b.1)) || !(created.contains a.2) || !(created.contains b.2) ||
        allBefore (deletePositions ds b.2) (deletePositions ds a.2))

/-- The fixed order in which `destroy` actually walks the resource types
(deploy.py lines 436-641). -/
def actualDestroyOrder : List String :=
  ["scaling_policy", "cloudwatch_alarm", "asg", "launch_template", "listener",
   "target_group", "alb", "security_group", "route_table", "subnet",
   "internet_gateway", "vpc"]

/-- Stage index of a resource type in the actual destroy order. -/
def stageRank (t : String) : Nat :=
  actualDestroyOrder.indexOf t

/-- Stage indices of a trace's delete calls, in issue order. -/
def deleteRanks (calls : List DCall) : List Nat :=
  (deleteTypes calls).map stageRank

/-- The provider stub of the bounded-retry claim: the delete answers
`DependencyViolation` exactly `N` times, then success. -/
def dvThen (N : Nat) : Nat → PResp :=
  fun k => if k < N then .clientError "DependencyViolation" else .ok

end Orchestrator

namespace Orchestrator

lemma latestFold_mem (l : List DeploymentRow) (acc : Option DeploymentRow)
    (d : DeploymentRow)
    (h : l.foldl (fun acc d => match acc with
        | none => some d
        | some a => if d.created_at > a.created_at then some d else some a) acc = some d) :
    d ∈ l ∨ acc = some d := by
  induction l generalizing acc with
  | nil => simp only [List.foldl_nil] at h; exact Or.inr h
  | cons x xs ih =>
    simp only [List.foldl_cons] at h
    rcases ih _ h with hmem | hacc
    · exact Or.inl (List.mem_cons_of_mem _ hmem)
    · cases acc with
      | none =>
        simp only [Option.some.injEq] at hacc
        exact Or.inl (hacc ▸ List.mem_cons_self x xs)
      | some a =>
        by_cases hlt : a.created_at < x.created_at
        · simp only [gt_iff_lt, hlt, if_true, Option.some.injEq] at hacc
          exact Or.inl (hacc ▸ List.mem_cons_self x xs)
        · simp only [gt_iff_lt, hlt, if_false] at hacc
          exact Or.inr hacc

lemma latestFold_ge (l : List DeploymentRow) (acc : Option DeploymentRow)
    (d : DeploymentRow)
    (h : l.foldl (fun acc d => match acc with
        | none => some d
        | some a => if d.created_at > a.created_at then some d else some a) acc = some d) :
    (∀ a, acc = some a → a.created_at ≤ d.created_at) ∧
    (∀ x ∈ l, x.created_at ≤ d.created_at) := by
  induction l generalizing acc with
  | nil =>
    simp only [List.foldl_nil] at h
    constructor
    · intro a ha
      rw [h] at ha
      cases Option.some.inj ha
      exact le_refl _
    · intro x hx
      exact absurd hx (List.not_mem_nil x)
  | cons x xs ih =>
    simp only [List.foldl_cons] at h
    have hstep := ih _ h
    cases acc with
    | none =>
      have hx := hstep.1 x rfl
      refine ⟨fun a ha => Option.noConfusion ha, fun y hy => ?_⟩
      rcases List.mem_cons.mp hy with rfl | hy'
      · exact hx
      · exact hstep.2 y hy'
    | some a =>
      by_cases hlt : a.created_at < x.created_at
      · simp only [gt_iff_lt, hlt, if_true] at hstep
        have hx := hstep.1 x rfl
        refine ⟨fun b hb => ?_, fun y hy => ?_⟩
        · cases Option.some.inj hb
          exact le_trans (le_of_lt hlt) hx
        · rcases List.mem_cons.mp hy with rfl | hy'
          · exact hx
          · exact hstep.2 y hy'
      · simp only [gt_iff_lt, hlt, if_false] at hstep
        have ha := hstep.1 a rfl
        refine ⟨fun b hb => ?_, fun y hy => ?_⟩
        · cases Option.some.inj hb; exact ha
        · rcases List.mem_cons.mp hy with rfl | hy'
          · exact le_trans (Nat.le_of_not_lt hlt) ha
          · exact hstep.2 y hy'

end Orchestrator

namespace Orchestrator

def SW5 : Store :=
  { deployments := [⟨"dev", "dA", 0, "in_progress"⟩, ⟨"dev", "dB", 1, "failed"⟩],
    resources := [{ deployment_id := "dA", resource_type := "vpc", resource_id := "vpc-A" }] }

theorem c5_completed_lookup (st : Store) (environment : String) :
    (∀ d, get_deployment_id st environment = some d →
      ∃ row, row ∈ st.deployments ∧ row.deployment_id = d ∧
        row.environment = environment ∧ row.status = "completed" ∧
        ∀ other, other ∈ st.deployments → other.environment = environment →
          other.status = "completed" → other.created_at ≤ row.created_at) ∧
    ((∀ row, row ∈ st.deployments → row.environment = environment →
        row.status ≠ "completed") →
      get_deployment_id st environment = none ∧
      (∀ o fuel, (destroy_run o st fuel environment).trace = [] ∧
        (destroy_run o st fuel environment).store = st) ∧
      (∀ rest : String → List DCall, status_run st environment rest = [])) := by
  constructor
  · intro d hd
    unfold get_deployment_id at hd
    simp only [Option.map_eq_some'] at hd
    obtain ⟨row, hfold, hid⟩ := hd
    have hmem := latestFold_mem _ _ _ hfold
    rcases hmem with hmem | habs
    · have hrow := List.mem_filter.mp hmem
      have hprops := of_decide_eq_true hrow.2
      refine ⟨row, hrow.1, hid, hprops.1, hprops.2, ?_⟩
      intro other hother henv hstat
      exact (latestFold_ge _ _ _ hfold).2 other
        (List.mem_filter.mpr ⟨hother, decide_eq_true ⟨henv, hstat⟩⟩)
    · exact absurd habs (by simp)
  · intro hnone
    have hfilter : st.deployments.filter (fun d =>
        decide (d.environment = environment ∧ d.status = "completed")) = [] := by
      rw [List.filter_eq_nil_iff]
      intro a ha
      simp only [decide_eq_true_eq, not_and]
      intro henv
      exact hnone a ha henv
    have hget : get_deployment_id st environment = none := by
      unfold get_deployment_id
      simp only [hfilter, List.foldl_nil, Option.map_none']
    refine ⟨hget, fun o fuel => ?_, fun rest => ?_⟩
    · unfold destroy_run
      rw [hget]
      exact ⟨rfl, rfl⟩
    · unfold status_run
      rw [hget]

end Orchestrator

namespace Orchestrator

theorem c5_witness :
    get_deployment_id SW5 "dev" = none ∧
    (destroy_run okDestroyOracle SW5 5 "dev").trace = [] ∧
    (destroy_run okDestroyOracle SW5 5 "dev").store = SW5 ∧
    status_run SW5 "dev" (fun d => [DCall.describeNI d]) = [] := by
  have h := (c5_completed_lookup SW5 "dev").2 (by decide)
  exact ⟨h.1, (h.2.1 okDestroyOracle 5).1, (h.2.1 okDestroyOracle 5).2, h.2.2 _⟩

end Orchestrator

namespace Orchestrator

lemma retryGo_dv_small (N : Nat) (hN : N < 5) :
    ∀ fuel attempt, attempt + fuel = 5 → attempt ≤ N →
      retryGo (dvThen N) 5 attempt fuel = ⟨N + 1 - attempt, .success⟩ := by
  intro fuel
  induction fuel with
  | zero => intro attempt h5 hle; omega
  | succ f ih =>
    intro attempt h5 hle
    rcases Nat.lt_or_ge attempt N with hlt | hge
    · have hresp : dvThen N attempt = .clientError "DependencyViolation" := by
        simp [dvThen, hlt]
      have hbranch : attempt < 5 - 1 := by omega
      have hrec := ih (attempt + 1) (by omega) (by omega)
      simp only [retryGo, hresp]
      rw [if_pos (show _ ∧ attempt < 5 - 1 from ⟨by trivial, hbranch⟩), hrec]
      have : N + 1 - attempt = (N + 1 - (attempt + 1)) + 1 := by omega
      simp [this]
    · have heq : attempt = N := Nat.le_antisymm hle hge
      subst heq
      have hresp : dvThen attempt attempt = .ok := by
        simp [dvThen]
      simp only [retryGo, hresp]
      congr 1
      omega

lemma retryGo_dv_big (N : Nat) (hN : 5 ≤ N) :
    ∀ fuel attempt, attempt + fuel = 5 → 1 ≤ fuel →
      retryGo (dvThen N) 5 attempt fuel = ⟨fuel, .loggedErr "DependencyViolation"⟩ := by
  intro fuel
  induction fuel with
  | zero => intro attempt h5 h1; omega
  | succ f ih =>
    intro attempt h5 h1
    have hresp : dvThen N attempt = .clientError "DependencyViolation" := by
      simp only [dvThen, if_pos (by omega : attempt < N)]
    rcases Nat.lt_or_ge attempt (5 - 1) with hlt | hge
    · have hrec := ih (attempt + 1) (by omega) (by omega)
      simp only [retryGo, hresp]
      rw [if_pos (show _ ∧ attempt < 5 - 1 from ⟨by trivial, hlt⟩), hrec]
    · have hf : f = 0 := by omega
      subst hf
      simp only [retryGo, hresp]
      rw [if_neg]
      intro hcon
      omega

/-- C3: in the destroy walk's bounded-retry delete loop (`max_retries =
5`), a provider answering `DependencyViolation` exactly `N` times then
success yields exactly `N+1` delete attempts and success when `N < 5`,
and exactly 5 attempts ending in a logged (non-raising) failure when
`N ≥ 5`; either way the walk continues with the next resource of the
stage, the remaining trace and outcome being those of the rest. -/
theorem c3_bounded_retry (N : Nat) :
    (N < 5 →
      retryDel (dvThen N) 5 = ⟨N + 1, .success⟩) ∧
    (5 ≤ N →
      retryDel (dvThen N) 5 = ⟨5, .loggedErr "DependencyViolation"⟩) ∧
    (∀ (resp : String → Nat → PResp) (r : ResourceRow) (rows : List ResourceRow),
      resp r.resource_id = dvThen N →
      (retryStage resp "security_group" (r :: rows)).1 =
        List.replicate (min (N + 1) 5) (DCall.delete "security_group" r.resource_id) ++
          (retryStage resp "security_group" rows).1 ∧
      (retryStage resp "security_group" (r :: rows)).2 =
        (retryStage resp "security_group" rows).2) := by
  have hsmall : N < 5 → retryDel (dvThen N) 5 = ⟨N + 1, .success⟩ := by
    intro h
    unfold retryDel
    simpa using retryGo_dv_small N h 5 0 rfl (Nat.zero_le N)
  have hbig : 5 ≤ N → retryDel (dvThen N) 5 = ⟨5, .loggedErr "DependencyViolation"⟩ := by
    intro h
    unfold retryDel
    exact retryGo_dv_big N h 5 0 rfl (by omega)
  refine ⟨hsmall, hbig, ?_⟩
  intro resp r rows hresp
  rcases Nat.lt_or_ge N 5 with hlt | hge
  · have hres := hsmall hlt
    have hmin : min (N + 1) 5 = N + 1 := by omega
    constructor
    · simp only [retryStage, hresp, hres, seqT, hmin]
    · simp only [retryStage, hresp, hres, seqT]
  · have hres := hbig hge
    have hmin : min (N + 1) 5 = 5 := by omega
    constructor
    · simp only [retryStage, hresp, hres, seqT, hmin]
    · simp only [retryStage, hresp, hres, seqT]

theorem c3_witness :
    retryDel (dvThen 2) 5 = ⟨3, .success⟩ ∧
    retryDel (dvThen 7) 5 = ⟨5, .loggedErr "DependencyViolation"⟩ ∧
    (retryStage (fun _ => dvThen 7) "security_group"
        [mkRow "security_group" "sg-alb" (some "alb-sg"),
         mkRow "security_group" "sg-ec2" (some "ec2-sg")]).1 =
      List.replicate 5 (DCall.delete "security_group" "sg-alb") ++
        (retryStage (fun _ => dvThen 7) "security_group"
          [mkRow "security_group" "sg-ec2" (some "ec2-sg")]).1 := by
  refine ⟨(c3_bounded_retry 2).1 (by decide), (c3_bounded_retry 7).2.1 (by decide), ?_⟩
  have h := ((c3_bounded_retry 7).2.2 (fun _ => dvThen 7)
    (mkRow "security_group" "sg-alb" (some "alb-sg"))
    [mkRow "security_group" "sg-ec2" (some "ec2-sg")] rfl).1
  simpa using h

end Orchestrator

namespace Orchestrator

/-- A deep-teardown provider where the VPC is already empty and every
call succeeds. -/
def okDvrOracle : DvrOracle where
  describe_load_balancers := .ok []
  delete_load_balancer := fun _ => .ok
  describe_target_groups := .ok []
  delete_target_group := fun _ => .ok
  describe_subnets := .ok []
  delete_subnet := fun _ => .ok
  describe_route_tables := .ok []
  delete_route_table := fun _ => .ok
  describe_security_groups := .ok []
  delete_security_group := fun _ => .ok
  describe_internet_gateways := .ok []
  detach_internet_gateway := fun _ => .ok
  delete_internet_gateway := fun _ => .ok
  describe_network_interfaces := .ok []
  describe_instance_state := fun _ => .ok "terminated"
  terminate_instances := fun _ => .ok
  waiter_instance_terminated := fun _ => .ok
  delete_network_interface := fun _ _ => .ok
  ni_poll := fun _ => 0
  delete_vpc := fun _ => .ok
  cleanup_nis := fun _ => .ok []
  detach_ni := fun _ => .ok
  delete_ni_cleanup := fun _ => .ok

lemma deepFold_calls (p : String → Prop) [DecidablePred p] (g : String → Bool) :
    ∀ (vs : List String) (acc : List String × List String),
      (vs.foldl (fun acc v =>
          if p v then acc
          else (acc.1 ++ [v], if g v then acc.2 else acc.2 ++ [v])) acc).1 =
      acc.1 ++ vs.filter (fun v => ¬ p v) := by
  intro vs
  induction vs with
  | nil => intro acc; simp
  | cons v rest ih =>
    intro acc
    by_cases hv : p v
    · simp only [List.foldl_cons, if_pos hv, ih, List.filter_cons]
      simp [hv]
    · simp only [List.foldl_cons, if_neg hv, ih, List.filter_cons]
      simp [hv]

theorem c10_default_filter (o : DAOracle) (st : Store)
    (hconfirm : pyLower o.confirm = "yes")
    (hsecond : o.describe_vpcs2 = [])
    (hne : o.describe_vpcs1.filter (fun v => v ≠ "default") ≠ []) :
    (destroy_all_run o st).deepCalls =
      (o.describe_vpcs1.filter (fun v => v ≠ "default")).filter
        (fun v => v ∉ tracked_vpc_ids st) ∧
    (∀ v ∈ o.describe_vpcs1, v ≠ "default" → v ∉ tracked_vpc_ids st →
      v ∈ (destroy_all_run o st).deepCalls) := by
  have hmain : (destroy_all_run o st).deepCalls =
      (o.describe_vpcs1.filter (fun v => v ≠ "default")).filter
        (fun v => v ∉ tracked_vpc_ids st) := by
    unfold destroy_all_run
    rw [if_neg, if_neg, if_neg]
    · simp only [hsecond, List.filter_nil, List.foldl_nil]
      rw [deepFold_calls (fun v => v ∈ tracked_vpc_ids st)
        (fun v => destroy_vpc_and_resources (o.dvr 0 v) v)]
      simp
    · simp only [List.isEmpty_iff]
      exact hne
    · simp only [ne_eq, hconfirm, not_true_eq_false, not_false_eq_true]
    · intro h
      exact absurd (List.isEmpty_iff.mp h.2) hne
  refine ⟨hmain, ?_⟩
  intro v hv hvd hvt
  rw [hmain]
  exact List.mem_filter.mpr ⟨List.mem_filter.mpr ⟨hv, by simp [hvd]⟩, by simp [hvt]⟩

end Orchestrator

namespace Orchestrator

/-- Bulk-destroy oracle for the C10 scenario: the account lists an
untracked VPC whose id is a realistic `vpc-…` string (not the literal
`"default"`) next to the tracked one. -/
def W10oracle : DAOracle where
  describe_vpcs1 := ["vpc-0abc123", "vpc-1"]
  describe_vpcs2 := []
  confirm := "yes"
  env_destroy := fun _ => okDestroyOracle
  env_fuel := 5
  dvr := fun _ _ => okDvrOracle

theorem c10_witness :
    (destroy_all_run W10oracle S0).deepCalls = ["vpc-0abc123"] ∧
    "vpc-0abc123" ∈ (destroy_all_run W10oracle S0).deepCalls := by
  have h := c10_default_filter W10oracle S0 (by decide) rfl (by decide)
  constructor
  · rw [h.1]; decide
  · exact h.2 "vpc-0abc123" (by decide) (by decide) (by decide)

end Orchestrator

namespace Orchestrator

theorem c8_orphan_classification (o : DAOracle) (st : Store) (X Y : String)
    (htracked : tracked_vpc_ids st = [X])
    (hlist : o.describe_vpcs1 = [X, Y])
    (hXd : X ≠ "default") (hYd : Y ≠ "default") (hYX : Y ≠ X)
    (hconfirm : pyLower o.confirm = "yes")
    (hsecond : o.describe_vpcs2 = [])
    (henvs : (get_all_deployments st).map (fun d => d.environment) = ["dev"]) :
    (X ∈ tracked_vpc_ids st ∧ Y ∉ tracked_vpc_ids st) ∧
    (destroy_all_run o st).envsDestroyed = ["dev"] ∧
    (destroy_all_run o st).deepCalls = [Y] ∧
    (destroy_all_run o st).failed_vpcs =
      (if destroy_vpc_and_resources (o.dvr 0 Y) Y then [] else [Y]) ∧
    (destroy_all_run o st).cancelled = false := by
  have hfilter : o.describe_vpcs1.filter (fun v => v ≠ "default") = [X, Y] := by
    rw [hlist]
    simp [List.filter_cons, hXd, hYd]
  have hXmem : X ∈ tracked_vpc_ids st := by rw [htracked]; exact List.mem_singleton.mpr rfl
  have hYmem : Y ∉ tracked_vpc_ids st := by
    rw [htracked]
    simp [hYX]
  refine ⟨⟨hXmem, hYmem⟩, ?_⟩
  unfold destroy_all_run
  rw [if_neg, if_neg, if_neg]
  · simp only [hfilter, hsecond, List.filter_nil, List.foldl_nil, List.foldl_cons,
      if_pos hXmem, if_neg hYmem, henvs]
    have henvlist : ((["dev"] : List String).eraseDups.mergeSort
        fun a b => decide (a ≤ b)) = ["dev"] := by
      have h1 : (["dev"] : List String).eraseDups = ["dev"] := by decide
      rw [h1, List.mergeSort_singleton]
    rw [henvlist]
    refine ⟨?_, ?_, ?_, ?_⟩
    · simp
    · by_cases hok : destroy_vpc_and_resources (o.dvr 0 Y) Y
      · simp [hok]
      · simp [hok]
    · by_cases hok : destroy_vpc_and_resources (o.dvr 0 Y) Y
      · simp [hok]
      · simp [hok]
    · trivial
  · rw [hfilter]
    simp
  · simp [hconfirm]
  · intro h
    rw [hfilter] at h
    simp at h

end Orchestrator

namespace Orchestrator

/-- A deep-teardown provider whose final VPC delete keeps answering
`DependencyViolation`, so the routine reports failure. -/
def dvFailDvrOracle : DvrOracle :=
  { okDvrOracle with delete_vpc := fun _ => .clientError "DependencyViolation" }

/-- Bulk-destroy oracle for the C8 scenario: the listing holds the
tracked aggregate and one orphan whose teardown fails. -/
def W8oracle : DAOracle where
  describe_vpcs1 := ["vpc-1", "vpc-y"]
  describe_vpcs2 := []
  confirm := "yes"
  env_destroy := fun _ => okDestroyOracle
  env_fuel := 5
  dvr := fun _ _ => dvFailDvrOracle

theorem c8_witness :
    (destroy_all_run W8oracle S0).envsDestroyed = ["dev"] ∧
    (destroy_all_run W8oracle S0).deepCalls = ["vpc-y"] ∧
    (destroy_all_run W8oracle S0).failed_vpcs = ["vpc-y"] ∧
    (destroy_all_run W8oracle S0).cancelled = false := by
  have h := c8_orphan_classification W8oracle S0 "vpc-1" "vpc-y" (by decide) rfl
    (by decide) (by decide) (by decide) (by decide) rfl (by decide)
  have hfail : destroy_vpc_and_resources (W8oracle.dvr 0 "vpc-y") "vpc-y" = false := by
    decide
  refine ⟨h.2.1, h.2.2.1, ?_, h.2.2.2.2⟩
  rw [h.2.2.2.1, hfail]
  simp

end Orchestrator

namespace Orchestrator

lemma sgScan_fold_snd_none (sgs : List ResourceRow)
    (h : ∀ sg ∈ sgs, sg.resource_name ≠ some "ec2-sg") :
    ∀ acc : Option ResourceRow × Option ResourceRow, acc.2 = none →
      (sgs.foldl
        (fun (p : Option ResourceRow × Option ResourceRow) sg =>
          if sg.resource_name = some "alb-sg" then (some sg, p.2)
          else if sg.resource_name = some "ec2-sg" then (p.1, some sg)
          else p) acc).2 = none := by
  induction sgs with
  | nil => intro acc hacc; simpa using hacc
  | cons x rest ih =>
    intro acc hacc
    have hx := h x (List.mem_cons_self x rest)
    have hrest : ∀ sg ∈ rest, sg.resource_name ≠ some "ec2-sg" :=
      fun sg hsg => h sg (List.mem_cons_of_mem x hsg)
    simp only [List.foldl_cons]
    by_cases halb : x.resource_name = some "alb-sg"
    · rw [if_pos halb]
      exact ih hrest _ hacc
    · rw [if_neg halb, if_neg hx]
      exact ih hrest _ hacc

/-- When no security-group row is named `ec2-sg`, the scan leaves
`existing_ec2_sg` unset. -/
lemma sgScan_snd_none (sgs : List ResourceRow)
    (h : ∀ sg ∈ sgs, sg.resource_name ≠ some "ec2-sg") :
    (sgScan sgs).2 = none := by
  unfold sgScan
  exact sgScan_fold_snd_none sgs h _ rfl

lemma sgScan_fold_fst_frozen (sgs : List ResourceRow)
    (h : ∀ sg ∈ sgs, sg.resource_name ≠ some "alb-sg") :
    ∀ acc : Option ResourceRow × Option ResourceRow,
      (sgs.foldl
        (fun (p : Option ResourceRow × Option ResourceRow) sg =>
          if sg.resource_name = some "alb-sg" then (some sg, p.2)
          else if sg.resource_name = some "ec2-sg" then (p.1, some sg)
          else p) acc).1 = acc.1 := by
  induction sgs with
  | nil => intro acc; simp
  | cons x rest ih =>
    intro acc
    have hx := h x (List.mem_cons_self x rest)
    have hrest : ∀ sg ∈ rest, sg.resource_name ≠ some "alb-sg" :=
      fun sg hsg => h sg (List.mem_cons_of_mem x hsg)
    simp only [List.foldl_cons]
    rw [if_neg hx]
    by_cases hec2 : x.resource_name = some "ec2-sg"
    · rw [if_pos hec2]
      exact ih hrest _
    · rw [if_neg hec2]
      exact ih hrest _

lemma sgScan_fold_fst_named (sgs : List ResourceRow) :
    ∀ acc : Option ResourceRow × Option ResourceRow,
      (∃ r ∈ sgs, r.resource_name = some "alb-sg") →
      ∃ r, (sgs.foldl
        (fun (p : Option ResourceRow × Option ResourceRow) sg =>
          if sg.resource_name = some "alb-sg" then (some sg, p.2)
          else if sg.resource_name = some "ec2-sg" then (p.1, some sg)
          else p) acc).1 = some r ∧ r ∈ sgs ∧ r.resource_name = some "alb-sg" := by
  induction sgs with
  | nil => intro acc h; obtain ⟨r, hr, _⟩ := h; exact absurd hr (List.not_mem_nil r)
  | cons x rest ih =>
    intro acc h
    simp only [List.foldl_cons]
    by_cases hrest : ∃ r ∈ rest, r.resource_name = some "alb-sg"
    · obtain ⟨r, hfold, hmem, hname⟩ := ih _ hrest
      exact ⟨r, hfold, List.mem_cons_of_mem x hmem, hname⟩
    · obtain ⟨r, hr, hname⟩ := h
      have hrx : r = x := by
        rcases List.mem_cons.mp hr with rfl | hmem
        · rfl
        · exact absurd ⟨r, hmem, hname⟩ hrest
      subst hrx
      rw [if_pos hname]
      have hnone : ∀ sg ∈ rest, sg.resource_name ≠ some "alb-sg" := by
        intro sg hsg hn
        exact hrest ⟨sg, hsg, hn⟩
      rw [sgScan_fold_fst_frozen rest hnone _]
      exact ⟨r, rfl, List.mem_cons_self r rest, hname⟩

/-- A security-group row named `alb-sg` makes the scan's
`existing_alb_sg` one such row. -/
lemma sgScan_fst_named (sgs : List ResourceRow)
    (h : ∃ r ∈ sgs, r.resource_name = some "alb-sg") :
    ∃ r, (sgScan sgs).1 = some r ∧ r ∈ sgs ∧ r.resource_name = some "alb-sg" := by
  unfold sgScan
  exact sgScan_fold_fst_named sgs _ h

lemma sgScan_fold_snd_frozen (sgs : List ResourceRow)
    (h : ∀ sg ∈ sgs, sg.resource_name ≠ some "ec2-sg") :
    ∀ acc : Option ResourceRow × Option ResourceRow,
      (sgs.foldl
        (fun (p : Option ResourceRow × Option ResourceRow) sg =>
          if sg.resource_name = some "alb-sg" then (some sg, p.2)
          else if sg.resource_name = some "ec2-sg" then (p.1, some sg)
          else p) acc).2 = acc.2 := by
  induction sgs with
  | nil => intro acc; simp
  | cons x rest ih =>
    intro acc
    have hx := h x (List.mem_cons_self x rest)
    have hrest : ∀ sg ∈ rest, sg.resource_name ≠ some "ec2-sg" :=
      fun sg hsg => h sg (List.mem_cons_of_mem x hsg)
    simp only [List.foldl_cons]
    by_cases halb : x.resource_name = some "alb-sg"
    · rw [if_pos halb]
      exact ih hrest _
    · rw [if_neg halb, if_neg hx]
      exact ih hrest _

lemma sgScan_fold_snd_named (sgs : List ResourceRow) :
    ∀ acc : Option ResourceRow × Option ResourceRow,
      (∃ r ∈ sgs, r.resource_name = some "ec2-sg") →
      ∃ r, (sgs.foldl
        (fun (p : Option ResourceRow × Option ResourceRow) sg =>
          if sg.resource_name = some "alb-sg" then (some sg, p.2)
          else if sg.resource_name = some "ec2-sg" then (p.1, some sg)
          else p) acc).2 = some r ∧ r ∈ sgs ∧ r.resource_name = some "ec2-sg" := by
  induction sgs with
  | nil => intro acc h; obtain ⟨r, hr, _⟩ := h; exact absurd hr (List.not_mem_nil r)
  | cons x rest ih =>
    intro acc h
    simp only [List.foldl_cons]
    by_cases hrest : ∃ r ∈ rest, r.resource_name = some "ec2-sg"
    · obtain ⟨r, hfold, hmem, hname⟩ := ih _ hrest
      exact ⟨r, hfold, List.mem_cons_of_mem x hmem, hname⟩
    · obtain ⟨r, hr, hname⟩ := h
      have hrx : r = x := by
        rcases List.mem_cons.mp hr with rfl | hmem
        · rfl
        · exact absurd ⟨r, hmem, hname⟩ hrest
      subst hrx
      have hnone : ∀ sg ∈ rest, sg.resource_name ≠ some "ec2-sg" := by
        intro sg hsg hn
        exact hrest ⟨sg, hsg, hn⟩
      have halbne : (r.resource_name = some "alb-sg") ∨ ¬(r.resource_name = some "alb-sg") := em _
      rcases halbne with halb | halb
      · rw [if_pos halb]
        rw [sgScan_fold_snd_frozen rest hnone _]
        rw [halb] at hname
        exact absurd (Option.some.inj hname) (by decide)
      · rw [if_neg halb, if_pos hname]
        rw [sgScan_fold_snd_frozen rest hnone _]
        exact ⟨r, rfl, List.mem_cons_self r rest, hname⟩

/-- A security-group row named `ec2-sg` makes the scan's
`existing_ec2_sg` one such row. -/
lemma sgScan_snd_named (sgs : List ResourceRow)
    (h : ∃ r ∈ sgs, r.resource_name = some "ec2-sg") :
    ∃ r, (sgScan sgs).2 = some r ∧ r ∈ sgs ∧ r.resource_name = some "ec2-sg" := by
  unfold sgScan
  exact sgScan_fold_snd_named sgs _ h

end Orchestrator

namespace Orchestrator

/-- An EC2 oracle whose probe confirms a live VPC and whose creation
calls all succeed with fresh identifiers. -/
def probeOkVpcOracle : VpcOracle where
  describe_vpcs := fun _ => .ok 1
  create_vpc := fun _ => .ok "vpc-new"
  modify_vpc_attribute := fun _ _ => .ok ()
  create_internet_gateway := .ok "igw-new"
  attach_internet_gateway := fun _ _ => .ok ()
  create_subnet := fun c _ => .ok ("sub-new-" ++ c)
  modify_subnet_attribute := fun _ => .ok ()
  create_route_table := fun _ => .ok "rt-new"
  create_route := fun _ => .ok ()
  associate_route_table := fun _ _ => .ok ()
  create_security_group := fun name _ => .ok ("sg-of-" ++ name)
  authorize_security_group_ingress := fun _ => .ok ()

/-- The `vpc` config section used in the reuse scenarios. -/
def cfg9 : VpcConfig :=
  { cidr := "10.0.0.0/16", subnets := [⟨"10.0.1.0/24", "a"⟩] }

/-- A store holding a live vpc row, a subnet row and a security-group
row named `ec2-sg` — but no row named `alb-sg`. -/
def S9a : Store :=
  { deployments := [⟨"dev", "d1", 0, "completed"⟩],
    resources :=
      [mkRow "vpc" "vpc-1" (some "webapp-vpc-dev"),
       mkRow "subnet" "sub-1" (some "webapp-subnet-a"),
       mkRow "security_group" "sg-ec2" (some "ec2-sg")] }

/-- Preservation of a row under an upsert with a different key triple. -/
lemma add_resource_keeps (st : Store) (d t i : String) (n : Option String)
    (m : List (String × String)) (r : ResourceRow) (hr : r ∈ st.resources)
    (hne : ¬(r.deployment_id = d ∧ r.resource_type = t ∧ r.resource_id = i)) :
    r ∈ (add_resource st d t i n m).resources := by
  unfold add_resource
  simp only [List.mem_append]
  left
  rw [List.mem_filter]
  refine ⟨hr, ?_⟩
  simp only [decide_eq_true_eq]
  tauto

/-- The appended row of an upsert. -/
lemma add_resource_adds (st : Store) (d t i : String) (n : Option String)
    (m : List (String × String)) :
    ({ deployment_id := d, resource_type := t, resource_id := i,
       resource_name := n, metadata := m } : ResourceRow) ∈
      (add_resource st d t i n m).resources := by
  unfold add_resource
  simp

/-- The subnet-creation loop only upserts rows of type `subnet`, so rows
of any other type survive it. -/
lemma createSubnetsGo_store_keeps (o : VpcOracle) (v e d : String) :
    ∀ (cfgs : List SubnetCfg) (st : Store) (tr : List VpcCall)
      (acc : List String) (r : ResourceRow), r ∈ st.resources →
      r.resource_type ≠ "subnet" →
      r ∈ (createSubnetsGo o v e d cfgs st tr acc).1.resources := by
  intro cfgs
  induction cfgs with
  | nil => intro st tr acc r hr _; simpa [createSubnetsGo] using hr
  | cons c rest ih =>
    intro st tr acc r hr ht
    unfold createSubnetsGo
    cases hsub : o.create_subnet c.cidr c.az with
    | error e1 => simp only [hsub]; exact hr
    | ok subnet_id =>
      cases hmod : o.modify_subnet_attribute subnet_id with
      | error e1 => simp only [hsub, hmod]; exact hr
      | ok u =>
        simp only [hsub, hmod]
        exact ih _ _ _ r
          (add_resource_keeps _ _ _ _ _ _ r hr (fun hc => ht hc.2.1)) ht

/-- The subnet-creation loop only appends to the trace. -/
lemma createSubnetsGo_trace_mono (o : VpcOracle) (v e d : String) :
    ∀ (cfgs : List SubnetCfg) (st : Store) (tr : List VpcCall)
      (acc : List String) (c : VpcCall), c ∈ tr →
      c ∈ (createSubnetsGo o v e d cfgs st tr acc).2.1 := by
  intro cfgs
  induction cfgs with
  | nil => intro st tr acc c hc; simpa [createSubnetsGo] using hc
  | cons cc rest ih =>
    intro st tr acc c hc
    unfold createSubnetsGo
    cases hsub : o.create_subnet cc.cidr cc.az with
    | error e1 => simp only [hsub]; exact List.mem_append_left _ hc
    | ok subnet_id =>
      cases hmod : o.modify_subnet_attribute subnet_id with
      | error e1 =>
        simp only [hsub, hmod]
        exact List.mem_append_left _ (List.mem_append_left _ hc)
      | ok u =>
        simp only [hsub, hmod]
        exact ih _ _ _ c (List.mem_append_left _ (List.mem_append_left _ hc))

/-- The association loop only appends to the trace. -/
lemma associateGo_trace_mono (o : VpcOracle) (rt : String) :
    ∀ (subs : List String) (tr : List VpcCall) (c : VpcCall), c ∈ tr →
      c ∈ (associateGo o rt subs tr).1 := by
  intro subs
  induction subs with
  | nil => intro tr c hc; simpa [associateGo] using hc
  | cons s rest ih =>
    intro tr c hc
    unfold associateGo
    cases ha : o.associate_route_table rt s with
    | error e1 => simp only [ha]; exact List.mem_append_left _ hc
    | ok u =>
      simp only [ha]
      exact ih _ c (List.mem_append_left _ hc)

end Orchestrator

namespace Orchestrator

/-- Every execution of the creation path issues the mutating
`create_vpc` call. -/
lemma create_vpc_fresh_trace_has_create (o : VpcOracle) (st : Store)
    (cfg : VpcConfig) (e d : String) (tr0 : List VpcCall) :
    VpcCall.createVpc cfg.cidr ∈ (create_vpc_fresh o st cfg e d tr0).trace := by
  unfold create_vpc_fresh
  have hin : VpcCall.createVpc cfg.cidr ∈ tr0 ++ [VpcCall.createVpc cfg.cidr] := by simp
  cases h1 : o.create_vpc cfg.cidr with
  | error e1 => simp [vpcFail]
  | ok vpc_id =>
    simp only [h1]
    cases h2 : o.modify_vpc_attribute vpc_id "EnableDnsHostnames" with
    | error e1 => simp [vpcFail]
    | ok u1 =>
      simp only [h2]
      cases h3 : o.modify_vpc_attribute vpc_id "EnableDnsSupport" with
      | error e1 => simp [vpcFail]
      | ok u2 =>
        simp only [h3]
        cases h4 : o.create_internet_gateway with
        | error e1 => simp [vpcFail]
        | ok igw_id =>
          simp only [h4]
          cases h5 : o.attach_internet_gateway igw_id vpc_id with
          | error e1 => simp [vpcFail]
          | ok u3 =>
            simp only [h5]
            have hmono := createSubnetsGo_trace_mono o vpc_id e d cfg.subnets
              (add_resource
                (add_resource st d "vpc" vpc_id
                  (some ("webapp-vpc-" ++ cfg.environment.getD "dev")))
                d "internet_gateway" igw_id)
              (tr0 ++ [VpcCall.createVpc cfg.cidr] ++
                [VpcCall.modifyVpcAttr vpc_id "EnableDnsHostnames"] ++
                [VpcCall.modifyVpcAttr vpc_id "EnableDnsSupport"] ++ [VpcCall.createIgw] ++
                [VpcCall.attachIgw igw_id vpc_id])
              [] (VpcCall.createVpc cfg.cidr) (by simp)
            rcases hsubs : createSubnetsGo o vpc_id e d cfg.subnets
              (add_resource
                (add_resource st d "vpc" vpc_id
                  (some ("webapp-vpc-" ++ cfg.environment.getD "dev")))
                d "internet_gateway" igw_id)
              (tr0 ++ [VpcCall.createVpc cfg.cidr] ++
                [VpcCall.modifyVpcAttr vpc_id "EnableDnsHostnames"] ++
                [VpcCall.modifyVpcAttr vpc_id "EnableDnsSupport"] ++ [VpcCall.createIgw] ++
                [VpcCall.attachIgw igw_id vpc_id])
              [] with ⟨st₃, tr₆, res⟩
            rw [hsubs] at hmono
            simp only at hmono
            cases res with
            | error e1 => simpa [vpcFail] using hmono
            | ok subnets =>
              simp only []
              cases h6 : o.create_route_table vpc_id with
              | error e1 => simp [vpcFail, hmono]
              | ok rt_id =>
                simp only [h6]
                cases h7 : o.create_route rt_id with
                | error e1 => simp [vpcFail, hmono]
                | ok u4 =>
                  simp only [h7]
                  have hmono2 := associateGo_trace_mono o rt_id subnets
                    (tr₆ ++ [VpcCall.createRouteTable vpc_id] ++ [VpcCall.createRoute rt_id])
                    (VpcCall.createVpc cfg.cidr) (by simp [hmono])
                  rcases hassoc : associateGo o rt_id subnets
                    (tr₆ ++ [VpcCall.createRouteTable vpc_id] ++ [VpcCall.createRoute rt_id])
                    with ⟨tr₉, res2⟩
                  rw [hassoc] at hmono2
                  simp only at hmono2
                  cases res2 with
                  | error e1 => simpa [vpcFail] using hmono2
                  | ok u5 =>
                    simp only []
                    cases h8 : o.create_security_group ("webapp-alb-sg-" ++ e) vpc_id with
                    | error e1 => simp [vpcFail, hmono2]
                    | ok alb_sg_id =>
                      simp only [h8]
                      cases h9 : o.authorize_security_group_ingress alb_sg_id with
                      | error e1 => simp [vpcFail, hmono2]
                      | ok u6 =>
                        simp only [h9]
                        cases hA : o.create_security_group ("webapp-ec2-sg-" ++ e) vpc_id with
                        | error e1 => simp [vpcFail, hmono2]
                        | ok ec2_sg_id =>
                          simp only [hA]
                          cases hB : o.authorize_security_group_ingress ec2_sg_id with
                          | error e1 => simp [vpcFail, hmono2]
                          | ok u7 =>
                            simp only [hB]
                            simp [hmono2]

end Orchestrator

namespace Orchestrator

/-- A row of type `vpc` present after the creation path's first store
write survives every later write of the path (which only upserts other
resource types). -/
lemma create_vpc_fresh_store_keeps (o : VpcOracle) (st : Store) (cfg : VpcConfig)
    (e d : String) (tr0 : List VpcCall) (newId : String)
    (hcreate : o.create_vpc cfg.cidr = .ok newId)
    (hmods : ∀ vid a, o.modify_vpc_attribute vid a = .ok ())
    (r : ResourceRow)
    (hr : r ∈ (add_resource st d "vpc" newId
      (some ("webapp-vpc-" ++ cfg.environment.getD "dev"))).resources)
    (hty : r.resource_type = "vpc") :
    r ∈ (create_vpc_fresh o st cfg e d tr0).store.resources := by
  unfold create_vpc_fresh
  rw [hcreate]
  simp only [hmods]
  cases h4 : o.create_internet_gateway with
  | error e1 => simp only [vpcFail]; exact hr
  | ok igw_id =>
    simp only [h4]
    cases h5 : o.attach_internet_gateway igw_id newId with
    | error e1 => simp only [vpcFail]; exact hr
    | ok u3 =>
      simp only [h5]
      have hr2 : r ∈ (add_resource
          (add_resource st d "vpc" newId
            (some ("webapp-vpc-" ++ cfg.environment.getD "dev")))
          d "internet_gateway" igw_id).resources :=
        add_resource_keeps _ _ _ _ _ _ r hr
          (fun hc => by rw [hty] at hc; exact absurd hc.2.1 (by decide))
      have hkeep := createSubnetsGo_store_keeps o newId e d cfg.subnets
        (add_resource
          (add_resource st d "vpc" newId
            (some ("webapp-vpc-" ++ cfg.environment.getD "dev")))
          d "internet_gateway" igw_id)
        (tr0 ++ [VpcCall.createVpc cfg.cidr] ++
          [VpcCall.modifyVpcAttr newId "EnableDnsHostnames"] ++
          [VpcCall.modifyVpcAttr newId "EnableDnsSupport"] ++ [VpcCall.createIgw] ++
          [VpcCall.attachIgw igw_id newId])
        [] r hr2 (by rw [hty]; decide)
      rcases hsubs : createSubnetsGo o newId e d cfg.subnets
        (add_resource
          (add_resource st d "vpc" newId
            (some ("webapp-vpc-" ++ cfg.environment.getD "dev")))
          d "internet_gateway" igw_id)
        (tr0 ++ [VpcCall.createVpc cfg.cidr] ++
          [VpcCall.modifyVpcAttr newId "EnableDnsHostnames"] ++
          [VpcCall.modifyVpcAttr newId "EnableDnsSupport"] ++ [VpcCall.createIgw] ++
          [VpcCall.attachIgw igw_id newId])
        [] with ⟨st₃, tr₆, res⟩
      rw [hsubs] at hkeep
      simp only at hkeep
      cases res with
      | error e1 => simp only [vpcFail]; exact hkeep
      | ok subnets =>
        simp only []
        cases h6 : o.create_route_table newId with
        | error e1 => simp only [vpcFail]; exact hkeep
        | ok rt_id =>
          simp only [h6]
          cases h7 : o.create_route rt_id with
          | error e1 => simp only [vpcFail]; exact hkeep
          | ok u4 =>
            simp only [h7]
            rcases hassoc : associateGo o rt_id subnets
              (tr₆ ++ [VpcCall.createRouteTable newId] ++ [VpcCall.createRoute rt_id])
              with ⟨tr₉, res2⟩
            cases res2 with
            | error e1 => simp only [vpcFail]; exact hkeep
            | ok u5 =>
              simp only []
              have hr4 : r ∈ (add_resource st₃ d "route_table" rt_id).resources :=
                add_resource_keeps _ _ _ _ _ _ r hkeep
                  (fun hc => by rw [hty] at hc; exact absurd hc.2.1 (by decide))
              cases h8 : o.create_security_group ("webapp-alb-sg-" ++ e) newId with
              | error e1 => simp only [vpcFail]; exact hr4
              | ok alb_sg_id =>
                simp only [h8]
                cases h9 : o.authorize_security_group_ingress alb_sg_id with
                | error e1 => simp only [vpcFail]; exact hr4
                | ok u6 =>
                  simp only [h9]
                  have hr5 : r ∈ (add_resource (add_resource st₃ d "route_table" rt_id)
                      d "security_group" alb_sg_id (some "alb-sg")).resources :=
                    add_resource_keeps _ _ _ _ _ _ r hr4
                      (fun hc => by rw [hty] at hc; exact absurd hc.2.1 (by decide))
                  cases hA : o.create_security_group ("webapp-ec2-sg-" ++ e) newId with
                  | error e1 => simp only [vpcFail]; exact hr5
                  | ok ec2_sg_id =>
                    simp only [hA]
                    cases hB : o.authorize_security_group_ingress ec2_sg_id with
                    | error e1 => simp only [vpcFail]; exact hr5
                    | ok u7 =>
                      simp only [hB]
                      exact add_resource_keeps _ _ _ _ _ _ r hr5
                        (fun hc => by rw [hty] at hc; exact absurd hc.2.1 (by decide))

end Orchestrator

namespace Orchestrator

/-- C9 counterexample: take a store whose deployment has a live vpc row,
a subnet row and a security-group row named `ec2-sg` but *no* row named
`alb-sg`.  The claim says such a store falls through to full creation
(issuing a mutating `create_vpc` call and recording a second vpc row);
the code instead resumes with zero mutating calls, an unchanged store,
and the `ec2-sg` row's id returned as the ALB security group. -/
theorem c9_counterexample :
    (∀ sg ∈ get_resources_typed S9a "d1" "security_group",
      sg.resource_name ≠ some "alb-sg") ∧
    get_resource_by_type S9a "d1" "vpc" =
      some (mkRow "vpc" "vpc-1" (some "webapp-vpc-dev")) ∧
    probeOkVpcOracle.describe_vpcs "vpc-1" = .ok 1 ∧
    (create_vpc_run probeOkVpcOracle S9a cfg9 "dev" "d1").trace.filter
      (fun c => c.mutating) = [] ∧
    (create_vpc_run probeOkVpcOracle S9a cfg9 "dev" "d1").store = S9a ∧
    (create_vpc_run probeOkVpcOracle S9a cfg9 "dev" "d1").result =
      .ok { vpc_id := "vpc-1", subnets := ["sub-1"],
            alb_sg_id := "sg-ec2", ec2_sg_id := "sg-ec2" } := by
  exact ⟨by decide, rfl, rfl, rfl, rfl, rfl⟩

/-- C9 as amended: with a live-probed vpc row, re-invoking the VPC stage
falls through to full creation when the store lacks subnet rows, lacks
security-group rows altogether, or lacks one named `ec2-sg` (lacking only
the `alb-sg` name does not trigger re-creation); the fall-through issues
the mutating `create_vpc` call and, when that call and the attribute
writes succeed with a fresh id, the store ends up holding both the old
and the new vpc row. -/
theorem c9_resume_requires_ec2_sg (o : VpcOracle) (st : Store) (cfg : VpcConfig)
    (environment deployment_id : String) (v : ResourceRow) (n : Nat) (newId : String)
    (hvpc : get_resource_by_type st deployment_id "vpc" = some v)
    (hprobe : o.describe_vpcs v.resource_id = .ok n) (hn : n ≠ 0)
    (hfall :
      get_resources_typed st deployment_id "subnet" = [] ∨
      get_resources_typed st deployment_id "security_group" = [] ∨
      (∀ sg ∈ get_resources_typed st deployment_id "security_group",
        sg.resource_name ≠ some "ec2-sg")) :
    create_vpc_run o st cfg environment deployment_id =
      create_vpc_fresh o st cfg environment deployment_id
        [VpcCall.describeVpcs v.resource_id] ∧
    VpcCall.createVpc cfg.cidr ∈
      (create_vpc_run o st cfg environment deployment_id).trace ∧
    (o.create_vpc cfg.cidr = .ok newId →
      (∀ vid a, o.modify_vpc_attribute vid a = .ok ()) →
      newId ≠ v.resource_id →
      ({ deployment_id := deployment_id, resource_type := "vpc",
         resource_id := newId,
         resource_name := some ("webapp-vpc-" ++ cfg.environment.getD "dev"),
         metadata := [] } : ResourceRow) ∈
        (create_vpc_run o st cfg environment deployment_id).store.resources ∧
      v ∈ (create_vpc_run o st cfg environment deployment_id).store.resources) := by
  have hveq : v.resource_type = "vpc" ∧ v.deployment_id = deployment_id ∧
      v ∈ st.resources := by
    unfold get_resource_by_type at hvpc
    have hmem : v ∈ get_resources_typed st deployment_id "vpc" := by
      cases hl : get_resources_typed st deployment_id "vpc" with
      | nil => rw [hl] at hvpc; simp at hvpc
      | cons a t =>
        rw [hl] at hvpc
        simp only [List.head?_cons, Option.some.injEq] at hvpc
        rw [← hvpc]
        exact List.mem_cons_self a t
    have hfm := List.mem_filter.mp hmem
    have hp := of_decide_eq_true hfm.2
    exact ⟨hp.2, hp.1, hfm.1⟩
  have hfallthrough : create_vpc_run o st cfg environment deployment_id =
      create_vpc_fresh o st cfg environment deployment_id
        [VpcCall.describeVpcs v.resource_id] := by
    unfold create_vpc_run
    rw [hvpc]
    simp only []
    rw [hprobe]
    simp only []
    rw [if_neg hn]
    rcases hfall with hsub | hsgs | hec2
    · rw [hsub]
      rfl
    · rw [hsgs]
      cases hie : (get_resources_typed st deployment_id "subnet").isEmpty
      · rfl
      · rfl
    · have h2 := sgScan_snd_none _ hec2
      rw [h2]
      cases hie : (get_resources_typed st deployment_id "subnet").isEmpty
      · cases hsc1 : (sgScan (get_resources_typed st deployment_id "security_group")).1
        · rfl
        · rfl
      · cases hsc1 : (sgScan (get_resources_typed st deployment_id "security_group")).1
        · rfl
        · rfl
  refine ⟨hfallthrough, ?_, ?_⟩
  · rw [hfallthrough]
    exact create_vpc_fresh_trace_has_create o st cfg environment deployment_id _
  · intro hcreate hmods hneq
    rw [hfallthrough]
    constructor
    · exact create_vpc_fresh_store_keeps o st cfg environment deployment_id _ newId
        hcreate hmods _ (add_resource_adds st deployment_id "vpc" newId _ _) rfl
    · refine create_vpc_fresh_store_keeps o st cfg environment deployment_id _ newId
        hcreate hmods v ?_ hveq.1
      exact add_resource_keeps _ _ _ _ _ _ v hveq.2.2
        (fun hc => hneq hc.2.2.symm)

end Orchestrator

namespace Orchestrator

/-- A store holding only the live vpc row of its deployment (no subnet
or security-group rows yet). -/
def S9w : Store :=
  { deployments := [⟨"dev", "d1", 0, "completed"⟩],
    resources := [mkRow "vpc" "vpc-1" (some "webapp-vpc-dev")] }

theorem c9_witness :
    VpcCall.createVpc "10.0.0.0/16" ∈
      (create_vpc_run probeOkVpcOracle S9w cfg9 "dev" "d1").trace ∧
    mkRow "vpc" "vpc-new" (some "webapp-vpc-dev") ∈
      (create_vpc_run probeOkVpcOracle S9w cfg9 "dev" "d1").store.resources ∧
    mkRow "vpc" "vpc-1" (some "webapp-vpc-dev") ∈
      (create_vpc_run probeOkVpcOracle S9w cfg9 "dev" "d1").store.resources := by
  have h := c9_resume_requires_ec2_sg probeOkVpcOracle S9w cfg9 "dev" "d1"
    (mkRow "vpc" "vpc-1" (some "webapp-vpc-dev")) 1 "vpc-new" rfl rfl (by decide)
    (Or.inl rfl)
  have hc := h.2.2 rfl (fun _ _ => rfl) (by decide)
  exact ⟨h.2.1, hc.1, hc.2⟩

end Orchestrator

namespace Orchestrator

/-- C1: when the Store already records the stage's resources and the
provider probe confirms the remote object live, re-invoking the VPC or
ALB stage returns the recorded identifiers (for the ALB, the DNS name the
probe reports — equal to the cached metadata when the two agree) with
zero mutating provider calls and an unchanged store. -/
theorem c1_idempotent_reuse
    (o : VpcOracle) (oA : AlbOracle) (st : Store) (cfg : VpcConfig)
    (environment deployment_id vpc_param : String)
    (v albRow tgRow : ResourceRow) (n : Nat) (d : AlbDesc) (ds : List AlbDesc)
    (hvpc : get_resource_by_type st deployment_id "vpc" = some v)
    (hprobe : o.describe_vpcs v.resource_id = .ok n) (hn : n ≠ 0)
    (hsubs : get_resources_typed st deployment_id "subnet" ≠ [])
    (halbname : ∃ r ∈ get_resources_typed st deployment_id "security_group",
      r.resource_name = some "alb-sg")
    (hec2name : ∃ r ∈ get_resources_typed st deployment_id "security_group",
      r.resource_name = some "ec2-sg")
    (halb : get_resource_by_type st deployment_id "alb" = some albRow)
    (hprobe2 : oA.describe_lbs_by_arn albRow.resource_id = .ok (d :: ds))
    (htg : get_resource_by_type st deployment_id "target_group" = some tgRow)
    (hdns : albRow.metadata.lookup "dns_name" = some d.dns) :
    (∃ albr ec2r,
      albr ∈ get_resources_typed st deployment_id "security_group" ∧
      albr.resource_name = some "alb-sg" ∧
      ec2r ∈ get_resources_typed st deployment_id "security_group" ∧
      ec2r.resource_name = some "ec2-sg" ∧
      create_vpc_run o st cfg environment deployment_id =
        { result := .ok
            { vpc_id := v.resource_id,
              subnets := (get_resources_typed st deployment_id "subnet").map
                (fun s => s.resource_id),
              alb_sg_id := albr.resource_id, ec2_sg_id := ec2r.resource_id },
          store := st, trace := [VpcCall.describeVpcs v.resource_id] }) ∧
    (create_vpc_run o st cfg environment deployment_id).trace.filter
      (fun c => c.mutating) = [] ∧
    create_alb_run oA st vpc_param environment deployment_id =
      { result := .ok
          { alb_arn := albRow.resource_id, alb_dns := d.dns,
            target_group_arn := tgRow.resource_id },
        store := st, trace := [AlbCall.describeLBsByArn albRow.resource_id] } ∧
    (create_alb_run oA st vpc_param environment deployment_id).trace.filter
      (fun c => c.mutating) = [] ∧
    albRow.metadata.lookup "dns_name" = some d.dns := by
  obtain ⟨albr, hscan1, halbmem, halbn⟩ := sgScan_fst_named _ halbname
  obtain ⟨ec2r, hscan2, hec2mem, hec2n⟩ := sgScan_snd_named _ hec2name
  have hie : (get_resources_typed st deployment_id "subnet").isEmpty = false := by
    simp only [List.isEmpty_eq_false]
    exact hsubs
  have hvpcrun : create_vpc_run o st cfg environment deployment_id =
      { result := .ok
          { vpc_id := v.resource_id,
            subnets := (get_resources_typed st deployment_id "subnet").map
              (fun s => s.resource_id),
            alb_sg_id := albr.resource_id, ec2_sg_id := ec2r.resource_id },
        store := st, trace := [VpcCall.describeVpcs v.resource_id] } := by
    unfold create_vpc_run
    rw [hvpc]
    simp only []
    rw [hprobe]
    simp only []
    rw [if_neg hn, hie, hscan1, hscan2]
  have halbrun : create_alb_run oA st vpc_param environment deployment_id =
      { result := .ok
          { alb_arn := albRow.resource_id, alb_dns := d.dns,
            target_group_arn := tgRow.resource_id },
        store := st, trace := [AlbCall.describeLBsByArn albRow.resource_id] } := by
    unfold create_alb_run
    rw [halb]
    simp only []
    rw [hprobe2]
    simp only []
    rw [htg]
  refine ⟨⟨albr, ec2r, halbmem, halbn, hec2mem, hec2n, hvpcrun⟩, ?_, halbrun, ?_, hdns⟩
  · rw [hvpcrun]
    rfl
  · rw [halbrun]
    rfl

end Orchestrator

namespace Orchestrator

/-- An ELBv2 oracle whose probe confirms the recorded load balancer
live; its mutating calls are never consulted on the reuse path. -/
def probeOkAlbOracle : AlbOracle where
  describe_lbs_by_arn := fun arn => .ok [⟨arn, "dns-1"⟩]
  create_load_balancer := fun _ => .error ⟨"unused"⟩
  describe_lbs_by_name := fun _ => .ok []
  create_target_group := fun _ => .error ⟨"unused"⟩
  describe_tgs_by_name := fun _ => .ok []
  create_listener := fun _ _ => .error ⟨"unused"⟩
  gen_suffix := fun _ => "abcd1234"

theorem c1_witness :
    (create_vpc_run probeOkVpcOracle S0 cfg9 "dev" "d1").trace.filter
      (fun c => c.mutating) = [] ∧
    (create_vpc_run probeOkVpcOracle S0 cfg9 "dev" "d1").store = S0 ∧
    (create_alb_run probeOkAlbOracle S0 "vpc-1" "dev" "d1").trace.filter
      (fun c => c.mutating) = [] ∧
    (create_alb_run probeOkAlbOracle S0 "vpc-1" "dev" "d1").store = S0 := by
  have h := c1_idempotent_reuse probeOkVpcOracle probeOkAlbOracle S0 cfg9 "dev" "d1"
    "vpc-1" (mkRow "vpc" "vpc-1" (some "webapp-vpc-dev"))
    { deployment_id := "d1", resource_type := "alb", resource_id := "arn-alb",
      resource_name := some "webapp-alb-dev-abc",
      metadata := [("dns_name", "dns-1")] }
    (mkRow "target_group" "arn-tg" (some "webapp-tg-dev-abc")) 1
    ⟨"arn-alb", "dns-1"⟩ [] rfl rfl (by decide) (by decide)
    ⟨mkRow "security_group" "sg-alb" (some "alb-sg"), by decide, rfl⟩
    ⟨mkRow "security_group" "sg-ec2" (some "ec2-sg"), by decide, rfl⟩
    rfl rfl rfl rfl
  obtain ⟨⟨albr, ec2r, _, _, _, _, hvpcrun⟩, hfilt1, halbrun, hfilt2, _⟩ := h
  refine ⟨hfilt1, ?_, hfilt2, ?_⟩
  · rw [hvpcrun]
  · rw [halbrun]

end Orchestrator

namespace Orchestrator

/-- Upserting a row of one resource type does not change lookups of a
different type. -/
lemma get_resource_by_type_add_other (st : Store) (d t i : String)
    (n : Option String) (m : List (String × String)) (d' t' : String)
    (hne : t' ≠ t) :
    get_resource_by_type (add_resource st d t i n m) d' t' =
      get_resource_by_type st d' t' := by
  unfold get_resource_by_type get_resources_typed add_resource
  simp only [List.filter_append]
  have h1 : List.filter (fun r : ResourceRow =>
      decide (r.deployment_id = d' ∧ r.resource_type = t'))
      [({ deployment_id := d, resource_type := t, resource_id := i,
          resource_name := n, metadata := m } : ResourceRow)] = [] := by
    simp only [List.filter_cons, List.filter_nil]
    rw [if_neg]
    simp only [decide_eq_true_eq, not_and]
    intro _ hc
    exact hne (hc.symm)
  rw [h1, List.append_nil]
  have h2 : ∀ l : List ResourceRow,
      List.filter (fun r => decide (r.deployment_id = d' ∧ r.resource_type = t'))
        (List.filter (fun r => decide ¬(r.deployment_id = d ∧ r.resource_type = t ∧
          r.resource_id = i)) l) =
      List.filter (fun r => decide (r.deployment_id = d' ∧ r.resource_type = t')) l := by
    intro l
    induction l with
    | nil => rfl
    | cons x xs ih =>
      by_cases hx : x.deployment_id = d ∧ x.resource_type = t ∧ x.resource_id = i
      · have hxq : ¬(x.deployment_id = d' ∧ x.resource_type = t') := by
          intro hq
          exact hne (hq.2 ▸ hx.2.1 ▸ rfl)
        simp only [List.filter_cons]
        rw [if_neg (by simp [hx.1, hx.2.1, hx.2.2]), if_neg (by simp [hxq])]
        exact ih
      · simp only [List.filter_cons]
        rw [if_pos (by simp [hx])]
        simp only [List.filter_cons]
        rcases em (x.deployment_id = d' ∧ x.resource_type = t') with hq | hq
        · rw [if_pos (by simp [hq.1, hq.2]), if_pos (by simp [hq.1, hq.2]), ih]
        · rw [if_neg (by simp [hq]), if_neg (by simp [hq])]
          exact ih
  rw [h2]

end Orchestrator

namespace Orchestrator

/-- C4 at the two cited sites.  On a duplicate-name conflict the ALB
path adopts: it looks the load balancer up by name, records the
discovered ARN, and returns it after a single create attempt.  The
launch-template path diverges from the claim: the conflict handler reads
the describe response under the key `"LaunchTemplate"`, while the
response dictionary carries `"LaunchTemplates"`, so the lookup raises
`KeyError`, nothing is recorded, and the deploy fails. -/
theorem c4_adoption_conflict
    (oA : AlbOracle) (oL : LtOracle) (st : Store)
    (vpc_param environment deployment_id ami : String)
    (a : AlbDesc) (rest : List AlbDesc) (tgRow lisRow : ResourceRow)
    (resp : List (String × List String))
    (hnoalb : get_resource_by_type st deployment_id "alb" = none)
    (hconf : oA.create_load_balancer
      ("webapp-alb-" ++ environment ++ "-" ++ oA.gen_suffix 0) =
      .error ⟨"DuplicateLoadBalancerName"⟩)
    (hdesc : oA.describe_lbs_by_name
      ("webapp-alb-" ++ environment ++ "-" ++ oA.gen_suffix 0) = .ok (a :: rest))
    (htg : get_resource_by_type st deployment_id "target_group" = some tgRow)
    (hlis : get_resource_by_type st deployment_id "listener" = some lisRow)
    (himg : oL.describe_images = .ok [(ami, 0)])
    (hltconf : oL.create_launch_template ("webapp-lt-" ++ environment) =
      .error ⟨"InvalidLaunchTemplateName.AlreadyExistsException"⟩)
    (hltdesc : oL.describe_launch_templates ("webapp-lt-" ++ environment) = .ok resp)
    (hkey : resp.lookup "LaunchTemplate" = none) :
    create_alb_run oA st vpc_param environment deployment_id =
      { result := .ok
          { alb_arn := a.arn, alb_dns := a.dns,
            target_group_arn := tgRow.resource_id },
        store := add_resource st deployment_id "alb" a.arn
          (some ("webapp-alb-" ++ environment ++ "-" ++ oA.gen_suffix 0))
          [("dns_name", a.dns)],
        trace :=
          [AlbCall.createLB ("webapp-alb-" ++ environment ++ "-" ++ oA.gen_suffix 0),
           AlbCall.describeLBsByName
             ("webapp-alb-" ++ environment ++ "-" ++ oA.gen_suffix 0)] } ∧
    create_launch_template_run oL st environment deployment_id =
      { result := .error "KeyError: LaunchTemplate", store := st,
        trace := [LtCall.describeImages,
                  LtCall.createLaunchTemplate ("webapp-lt-" ++ environment),
                  LtCall.describeLaunchTemplates ("webapp-lt-" ++ environment)] } := by
  constructor
  · have htg' : get_resource_by_type
        (add_resource st deployment_id "alb" a.arn
          (some ("webapp-alb-" ++ environment ++ "-" ++ oA.gen_suffix 0))
          [("dns_name", a.dns)]) deployment_id "target_group" = some tgRow := by
      rw [get_resource_by_type_add_other _ _ _ _ _ _ _ _ (by decide)]
      exact htg
    have hlis' : get_resource_by_type
        (add_resource st deployment_id "alb" a.arn
          (some ("webapp-alb-" ++ environment ++ "-" ++ oA.gen_suffix 0))
          [("dns_name", a.dns)]) deployment_id "listener" = some lisRow := by
      rw [get_resource_by_type_add_other _ _ _ _ _ _ _ _ (by decide)]
      exact hlis
    unfold create_alb_run
    rw [hnoalb]
    simp only [create_alb_fresh]
    rw [hconf]
    simp only []
    rw [if_pos trivial, hdesc]
    simp only [create_alb_tail]
    rw [htg']
    simp only []
    rw [hlis']
    simp [List.nil_append]
  · unfold create_launch_template_run get_latest_amazon_linux_ami
    rw [himg]
    simp only [List.foldl_cons, List.foldl_nil]
    rw [hltconf]
    simp only []
    rw [if_pos trivial, hltdesc]
    simp only []
    rw [hkey]
    rfl

end Orchestrator

namespace Orchestrator

/-- An ELBv2 oracle answering every load-balancer create with the
duplicate-name conflict, with the existing balancer discoverable by
name. -/
def conflictAlbOracle : AlbOracle where
  describe_lbs_by_arn := fun _ => .ok []
  create_load_balancer := fun _ => .error ⟨"DuplicateLoadBalancerName"⟩
  describe_lbs_by_name := fun _ => .ok [⟨"arn-found", "dns-found"⟩]
  create_target_group := fun _ => .error ⟨"unused"⟩
  describe_tgs_by_name := fun _ => .ok []
  create_listener := fun _ _ => .error ⟨"unused"⟩
  gen_suffix := fun _ => "abcd1234"

/-- An EC2 oracle answering the launch-template create with the
already-exists conflict; the describe response carries the AWS key
`"LaunchTemplates"`. -/
def conflictLtOracle : LtOracle where
  describe_images := .ok [("ami-1", 0)]
  create_launch_template := fun _ =>
    .error ⟨"InvalidLaunchTemplateName.AlreadyExistsException"⟩
  describe_launch_templates := fun _ => .ok [("LaunchTemplates", ["lt-existing"])]

/-- A store with target-group and listener rows already recorded but no
load-balancer row. -/
def S4 : Store :=
  { deployments := [⟨"dev", "d1", 0, "completed"⟩],
    resources := [mkRow "target_group" "arn-tg", mkRow "listener" "arn-lis"] }

theorem c4_witness :
    (create_alb_run conflictAlbOracle S4 "vpc-1" "dev" "d1").result =
      .ok { alb_arn := "arn-found", alb_dns := "dns-found",
            target_group_arn := "arn-tg" } ∧
    (create_launch_template_run conflictLtOracle S4 "dev" "d1").result =
      .error "KeyError: LaunchTemplate" ∧
    (create_launch_template_run conflictLtOracle S4 "dev" "d1").store = S4 := by
  have h := c4_adoption_conflict conflictAlbOracle conflictLtOracle S4 "vpc-1" "dev" "d1"
    "ami-1" ⟨"arn-found", "dns-found"⟩ [] (mkRow "target_group" "arn-tg")
    (mkRow "listener" "arn-lis") [("LaunchTemplates", ["lt-existing"])]
    rfl rfl rfl rfl rfl rfl rfl rfl rfl
  refine ⟨?_, ?_, ?_⟩
  · rw [h.1]
    rfl
  · rw [h.2]
  · rw [h.2]

end Orchestrator

namespace Orchestrator

/-- A drain-loop poll answer that ends the `while True` loop: no group
listed, zero instances, or a raised describe error. -/
def drainExit (r : Except ClientErr (Option Nat)) : Prop :=
  r = .ok none ∨ r = .ok (some 0) ∨ ∃ e, r = .error e

lemma albWaitGo_le (alive : Nat → Bool) : ∀ fuel k, albWaitGo alive k fuel ≤ fuel := by
  intro fuel
  induction fuel with
  | zero => intro k; simp [albWaitGo]
  | succ f ih =>
    intro k
    unfold albWaitGo
    by_cases h : alive k
    · rw [if_pos h]
      have := ih (k + 1)
      omega
    · rw [if_neg h]
      omega

lemma niWaitGo_le (count : Nat → Nat) : ∀ fuel k, niWaitGo count k fuel ≤ fuel := by
  intro fuel
  induction fuel with
  | zero => intro k; simp [niWaitGo]
  | succ f ih =>
    intro k
    unfold niWaitGo
    by_cases h : count k = 0
    · rw [if_pos h]
      omega
    · rw [if_neg h]
      have := ih (k + 1)
      omega

lemma asgDrainGo_exit_iff (poll : Nat → Except ClientErr (Option Nat)) :
    ∀ fuel k, asgDrainGo poll k fuel ≠ DrainOut.outOfFuel ↔
      ∃ j, k ≤ j ∧ j < k + fuel ∧ drainExit (poll j) := by
  intro fuel
  induction fuel with
  | zero =>
    intro k
    simp only [asgDrainGo, ne_eq, not_true_eq_false, false_iff]
    rintro ⟨j, hk, hj, _⟩
    omega
  | succ f ih =>
    intro k
    constructor
    · intro h
      unfold asgDrainGo at h
      cases hp : poll k with
      | error e => exact ⟨k, le_refl k, by omega, Or.inr (Or.inr ⟨e, hp⟩)⟩
      | ok v =>
        cases v with
        | none => exact ⟨k, le_refl k, by omega, Or.inl hp⟩
        | some m =>
          cases m with
          | zero => exact ⟨k, le_refl k, by omega, Or.inr (Or.inl hp)⟩
          | succ m' =>
            rw [hp] at h
            obtain ⟨j, hk, hj, hexit⟩ := (ih (k + 1)).mp h
            exact ⟨j, by omega, by omega, hexit⟩
    · rintro ⟨j, hk, hj, hexit⟩
      unfold asgDrainGo
      cases hp : poll k with
      | error e => simp
      | ok v =>
        cases v with
        | none => simp
        | some m =>
          cases m with
          | zero => simp
          | succ m' =>
            simp only []
            apply (ih (k + 1)).mpr
            have hjk : j ≠ k := by
              intro heq
              rw [heq, hp] at hexit
              rcases hexit with h1 | h1 | ⟨e, h1⟩ <;> simp at h1
            exact ⟨j, by omega, by omega, hexit⟩

lemma asgDrainGo_const_one : ∀ (fuel k : Nat),
    asgDrainGo (fun _ => Except.ok (some 1)) k fuel = DrainOut.outOfFuel := by
  intro fuel
  induction fuel with
  | zero => intro k; rfl
  | succ f ih => intro k; unfold asgDrainGo; exact ih (k + 1)

/-- C7 counterexample: with a provider that keeps reporting one live
instance, no total-wait bound whatsoever makes the ASG drain loop of
`destroy` (deploy.py lines 465-472) return control — the `while True`
loop polls forever. -/
theorem c7_counterexample :
    ¬ ∃ bound : Nat,
      asgDrain (fun _ => Except.ok (some 1)) bound ≠ DrainOut.outOfFuel := by
  rintro ⟨bound, hb⟩
  exact hb (asgDrainGo_const_one bound 0)

/-- C7 as amended: the ALB-deletion wait and the network-interface wait
poll at fixed intervals under bounded maximum total waits (at most 6 and
13 describe calls) and then return control, but the autoscaling-group
drain wait has no bound: it returns control within a window exactly when
some poll inside that window reports no group, zero instances, or a
raised describe error. -/
theorem c7_bounded_waits (alive : Nat → Bool) (count : Nat → Nat)
    (poll : Nat → Except ClientErr (Option Nat)) (fuel : Nat) :
    albWaitPolls alive ≤ 6 ∧
    niWaitPolls count ≤ 13 ∧
    (asgDrain poll fuel ≠ DrainOut.outOfFuel ↔
      ∃ j, j < fuel ∧ drainExit (poll j)) := by
  refine ⟨albWaitGo_le alive 6 0, ?_, ?_⟩
  · unfold niWaitPolls
    by_cases h : count 0 = 0
    · rw [if_pos h]
      omega
    · rw [if_neg h]
      have := niWaitGo_le count 12 0
      omega
  · unfold asgDrain
    rw [asgDrainGo_exit_iff poll fuel 0]
    constructor
    · rintro ⟨j, _, hj, hexit⟩
      exact ⟨j, by omega, hexit⟩
    · rintro ⟨j, hj, hexit⟩
      exact ⟨j, by omega, by omega, hexit⟩

theorem c7_witness :
    albWaitPolls (fun _ => true) ≤ 6 ∧
    niWaitPolls (fun _ => 3) ≤ 13 ∧
    asgDrain (fun k => Except.ok (some (1 - k))) 5 ≠ DrainOut.outOfFuel := by
  have h := c7_bounded_waits (fun _ => true) (fun _ => 3)
    (fun k => Except.ok (some (1 - k))) 5
  exact ⟨h.1, h.2.1, h.2.2.mpr ⟨1, by omega, Or.inr (Or.inl rfl)⟩⟩

end Orchestrator

namespace Orchestrator

/-- Every delete call of the trace targets the given resource type. -/
def TypedDeletes (t : String) (l : List DCall) : Prop :=
  ∀ s target, DCall.delete s target ∈ l → s = t

lemma typedDeletes_nil (t : String) : TypedDeletes t [] := by
  intro s target h
  exact absurd h (List.not_mem_nil _)

lemma typedDeletes_map_delete (t : String) (rows : List ResourceRow)
    (f : ResourceRow → String) :
    TypedDeletes t (rows.map (fun r => DCall.delete t (f r))) := by
  intro s target h
  obtain ⟨r, _, heq⟩ := List.mem_map.mp h
  cases heq
  rfl

lemma typedDeletes_policyStage (an : Option String) (rows : List ResourceRow) :
    TypedDeletes "scaling_policy" (policyStage an rows) := by
  cases an with
  | none => exact typedDeletes_nil _
  | some a => exact typedDeletes_map_delete _ rows _

lemma typedDeletes_simple (t : String) (rows : List ResourceRow) :
    TypedDeletes t (simpleDelStage t rows) :=
  typedDeletes_map_delete t rows _

lemma typedDeletes_replicate (t : String) (n : Nat) (target : String) :
    TypedDeletes t (List.replicate n (DCall.delete t target)) := by
  intro s tg h
  have := List.eq_of_mem_replicate h
  cases this
  rfl

lemma typedDeletes_append (t : String) (a b : List DCall)
    (ha : TypedDeletes t a) (hb : TypedDeletes t b) : TypedDeletes t (a ++ b) := by
  intro s tg h
  rcases List.mem_append.mp h with h1 | h1
  · exact ha s tg h1
  · exact hb s tg h1

lemma typedDeletes_cons_delete (t : String) (target : String) (l : List DCall)
    (hl : TypedDeletes t l) : TypedDeletes t (DCall.delete t target :: l) := by
  intro s tg h
  rcases List.mem_cons.mp h with heq | h1
  · cases heq
    rfl
  · exact hl s tg h1

lemma typedDeletes_non_delete (t : String) (l : List DCall)
    (h : ∀ c ∈ l, ∀ s target, c ≠ DCall.delete s target) : TypedDeletes t l := by
  intro s tg hmem
  exact absurd rfl (h _ hmem s tg)

lemma typedDeletes_map_describe {α : Type} (t : String) (xs : List α) (f : α → DCall)
    (hf : ∀ x s target, f x ≠ DCall.delete s target) :
    TypedDeletes t (xs.map f) := by
  apply typedDeletes_non_delete
  intro c hc s target
  obtain ⟨x, _, rfl⟩ := List.mem_map.mp hc
  exact hf x s target

lemma typedDeletes_asgStage (o : DestroyOracle) (fuel : Nat)
    (rows : List ResourceRow) : TypedDeletes "asg" (asgStage o fuel rows).1 := by
  unfold asgStage
  cases rows.head? with
  | none => exact typedDeletes_nil _
  | some a =>
    simp only []
    cases o.update_auto_scaling_group a.resource_id with
    | ok =>
      simp only []
      cases asgDrain (o.describe_auto_scaling_groups a.resource_id) fuel with
      | drained polls =>
        simp only []
        cases o.delete_auto_scaling_group a.resource_id with
        | ok =>
          apply typedDeletes_append
          · apply typedDeletes_append
            · intro s tg h; simp at h
            · exact typedDeletes_map_describe _ _ _ (by intro x s tg; simp)
          · exact typedDeletes_cons_delete _ _ _ (typedDeletes_nil _)
        | clientError c =>
          apply typedDeletes_append
          · apply typedDeletes_append
            · intro s tg h; simp at h
            · exact typedDeletes_map_describe _ _ _ (by intro x s tg; simp)
          · exact typedDeletes_cons_delete _ _ _ (typedDeletes_nil _)
        | otherError m =>
          apply typedDeletes_append
          · apply typedDeletes_append
            · intro s tg h; simp at h
            · exact typedDeletes_map_describe _ _ _ (by intro x s tg; simp)
          · exact typedDeletes_cons_delete _ _ _ (typedDeletes_nil _)
      | raised e polls =>
        apply typedDeletes_append
        · intro s tg h; simp at h
        · exact typedDeletes_map_describe _ _ _ (by intro x s tg; simp)
      | outOfFuel =>
        apply typedDeletes_append
        · intro s tg h; simp at h
        · exact typedDeletes_map_describe _ _ _ (by intro x s tg; simp)
    | clientError c => intro s tg h; simp at h
    | otherError m => intro s tg h; simp at h

lemma typedDeletes_albStage (o : DestroyOracle) (rows : List ResourceRow) :
    TypedDeletes "alb" (albStage o rows) := by
  induction rows with
  | nil => exact typedDeletes_nil _
  | cons r rest ih =>
    unfold albStage
    cases o.delete_load_balancer r.resource_id with
    | ok =>
      apply typedDeletes_cons_delete
      apply typedDeletes_append
      · exact typedDeletes_map_describe _ _ _ (by intro x s tg; simp)
      · exact ih
    | clientError c => exact typedDeletes_cons_delete _ _ _ ih
    | otherError m => exact typedDeletes_cons_delete _ _ _ ih

lemma typedDeletes_retryStage (resp : String → Nat → PResp) (t : String)
    (rows : List ResourceRow) : TypedDeletes t (retryStage resp t rows).1 := by
  induction rows with
  | nil => exact typedDeletes_nil _
  | cons r rest ih =>
    unfold retryStage
    simp only []
    cases (retryDel (resp r.resource_id) 5).why with
    | aborted m => exact typedDeletes_replicate _ _ _
    | success =>
      unfold seqT
      simp only []
      exact typedDeletes_append _ _ _ (typedDeletes_replicate _ _ _) ih
    | loggedErr c =>
      unfold seqT
      simp only []
      exact typedDeletes_append _ _ _ (typedDeletes_replicate _ _ _) ih
    | fellThrough =>
      unfold seqT
      simp only []
      exact typedDeletes_append _ _ _ (typedDeletes_replicate _ _ _) ih

lemma typedDeletes_niWaitStage (t : String) (o : DestroyOracle)
    (v : Option String) : TypedDeletes t (niWaitStage o v) := by
  cases v with
  | none => exact typedDeletes_nil _
  | some vid => exact typedDeletes_map_describe _ _ _ (by intro x s tg; simp [niWaitStage])

lemma typedDeletes_detach_cons (l : List DCall) (g vv : String)
    (h : TypedDeletes "internet_gateway" l) :
    TypedDeletes "internet_gateway" (DCall.detachIgw g vv :: l) := by
  intro s tg hm
  rcases List.mem_cons.mp hm with heq | hm'
  · cases heq
  · exact h s tg hm'

lemma typedDeletes_igwGo (o : DestroyOracle) (igw : String) (v : Option String)
    (mR : Nat) : ∀ fuel attempt,
    TypedDeletes "internet_gateway" (igwGo o igw v mR attempt fuel).1 := by
  intro fuel
  induction fuel with
  | zero => intro attempt; exact typedDeletes_nil _
  | succ f ih =>
    intro attempt
    unfold igwGo
    cases v with
    | none =>
      simp only []
      cases hd : o.delete_internet_gateway igw attempt with
      | ok =>
        simp only [hd]
        exact typedDeletes_cons_delete _ _ _ (typedDeletes_nil _)
      | clientError c =>
        simp only [hd]
        by_cases hc : c = "DependencyViolation" ∧ attempt < mR - 1
        · rw [if_pos hc]
          exact typedDeletes_append _ _ _
            (typedDeletes_cons_delete _ _ _ (typedDeletes_nil _)) (ih (attempt + 1))
        · rw [if_neg hc]
          exact typedDeletes_cons_delete _ _ _ (typedDeletes_nil _)
      | otherError m =>
        simp only [hd]
        exact typedDeletes_cons_delete _ _ _ (typedDeletes_nil _)
    | some vv =>
      simp only []
      cases hdet : o.detach_internet_gateway igw vv attempt with
      | ok =>
        simp only [hdet]
        cases hd : o.delete_internet_gateway igw attempt with
        | ok =>
          simp only [hd]
          exact typedDeletes_detach_cons _ _ _
            (typedDeletes_cons_delete _ _ _ (typedDeletes_nil _))
        | clientError c =>
          simp only [hd]
          by_cases hc : c = "DependencyViolation" ∧ attempt < mR - 1
          · rw [if_pos hc]
            apply typedDeletes_append
            · exact typedDeletes_detach_cons _ _ _
                (typedDeletes_cons_delete _ _ _ (typedDeletes_nil _))
            · exact ih (attempt + 1)
          · rw [if_neg hc]
            exact typedDeletes_detach_cons _ _ _
              (typedDeletes_cons_delete _ _ _ (typedDeletes_nil _))
        | otherError m =>
          simp only [hd]
          exact typedDeletes_detach_cons _ _ _
            (typedDeletes_cons_delete _ _ _ (typedDeletes_nil _))
      | clientError c =>
        simp only [hdet]
        by_cases hc : c = "Gateway.NotAttached"
        · rw [if_pos hc]
          simp only []
          cases hd : o.delete_internet_gateway igw attempt with
          | ok =>
            simp only [hd]
            exact typedDeletes_detach_cons _ _ _
              (typedDeletes_cons_delete _ _ _ (typedDeletes_nil _))
          | clientError c2 =>
            simp only [hd]
            by_cases hc2 : c2 = "DependencyViolation" ∧ attempt < mR - 1
            · rw [if_pos hc2]
              apply typedDeletes_append
              · exact typedDeletes_detach_cons _ _ _
                  (typedDeletes_cons_delete _ _ _ (typedDeletes_nil _))
              · exact ih (attempt + 1)
            · rw [if_neg hc2]
              exact typedDeletes_detach_cons _ _ _
                (typedDeletes_cons_delete _ _ _ (typedDeletes_nil _))
          | otherError m =>
            simp only [hd]
            exact typedDeletes_detach_cons _ _ _
              (typedDeletes_cons_delete _ _ _ (typedDeletes_nil _))
        · rw [if_neg hc, ite_self]
          simp only []
          by_cases ha : attempt < mR - 1
          · rw [if_pos ha]
            exact typedDeletes_append _ _ _
              (typedDeletes_detach_cons _ _ _ (typedDeletes_nil _)) (ih (attempt + 1))
          · rw [if_neg ha]
            exact typedDeletes_detach_cons _ _ _ (typedDeletes_nil _)
      | otherError m =>
        simp only [hdet]
        exact typedDeletes_detach_cons _ _ _ (typedDeletes_nil _)

lemma typedDeletes_igwStage (o : DestroyOracle) (v : Option String)
    (rows : List ResourceRow) :
    TypedDeletes "internet_gateway" (igwStage o v rows).1 := by
  induction rows with
  | nil => exact typedDeletes_nil _
  | cons r rest ih =>
    unfold igwStage seqT
    cases (igwGo o r.resource_id v 5 0 5).2 with
    | some m => exact typedDeletes_igwGo o r.resource_id v 5 5 0
    | none => exact typedDeletes_append _ _ _ (typedDeletes_igwGo o r.resource_id v 5 5 0) ih

end Orchestrator

namespace Orchestrator

/-- The trace's delete calls are stage-sorted from rank `i` on: their
ranks are non-decreasing and all at least `i`. -/
def RankedFrom (i : Nat) (l : List DCall) : Prop :=
  (deleteRanks l).Sorted (· ≤ ·) ∧ ∀ r ∈ deleteRanks l, i ≤ r

lemma deleteTypes_append (a b : List DCall) :
    deleteTypes (a ++ b) = deleteTypes a ++ deleteTypes b := by
  unfold deleteTypes
  exact List.filterMap_append a b _

lemma deleteRanks_append (a b : List DCall) :
    deleteRanks (a ++ b) = deleteRanks a ++ deleteRanks b := by
  unfold deleteRanks
  rw [deleteTypes_append, List.map_append]

lemma sorted_of_const (i : Nat) : ∀ xs : List Nat, (∀ x ∈ xs, x = i) →
    xs.Sorted (· ≤ ·) := by
  intro xs
  induction xs with
  | nil => intro _; exact List.sorted_nil
  | cons x rest ih =>
    intro h
    rw [List.sorted_cons]
    constructor
    · intro b hb
      rw [h x (List.mem_cons_self x rest), h b (List.mem_cons_of_mem x hb)]
    · exact ih (fun y hy => h y (List.mem_cons_of_mem x hy))

lemma deleteRanks_const (t : String) (i : Nat) (l : List DCall)
    (ht : TypedDeletes t l) (hi : stageRank t = i) :
    ∀ r ∈ deleteRanks l, r = i := by
  intro r hr
  unfold deleteRanks at hr
  obtain ⟨s, hs, rfl⟩ := List.mem_map.mp hr
  unfold deleteTypes at hs
  obtain ⟨c, hc, hcs⟩ := List.mem_filterMap.mp hs
  cases c with
  | delete t' target =>
    simp only [Option.some.injEq] at hcs
    rw [← hcs, ht t' target hc, hi]
  | updateAsgCapacity n => simp at hcs
  | describeAsg n => simp at hcs
  | describeLB n => simp at hcs
  | describeNI n => simp at hcs
  | detachIgw g vv => simp at hcs

lemma rankedFrom_of_typed (t : String) (i : Nat) (l : List DCall)
    (ht : TypedDeletes t l) (hi : stageRank t = i) : RankedFrom i l := by
  have hconst := deleteRanks_const t i l ht hi
  exact ⟨sorted_of_const i _ hconst, fun r hr => (hconst r hr) ▸ le_refl i⟩

lemma rankedFrom_seqT (t : String) (i j : Nat) {a b : StageOut}
    (ht : TypedDeletes t a.1) (hi : stageRank t = i)
    (hb : RankedFrom j b.1) (hij : i ≤ j) : RankedFrom i (seqT a b).1 := by
  unfold seqT
  cases a.2 with
  | some m => exact rankedFrom_of_typed t i a.1 ht hi
  | none =>
    simp only []
    have hconst := deleteRanks_const t i a.1 ht hi
    constructor
    · rw [deleteRanks_append]
      refine List.pairwise_append.mpr ⟨sorted_of_const i _ hconst, hb.1, ?_⟩
      intro x hx y hy
      rw [hconst x hx]
      exact le_trans hij (hb.2 y hy)
    · intro r hr
      rw [deleteRanks_append] at hr
      rcases List.mem_append.mp hr with h1 | h1
      · exact (hconst r h1) ▸ le_refl i
      · exact le_trans hij (hb.2 r h1)

/-- Delete types stay within the walked type list. -/
def DeletesAmong (l : List DCall) : Prop :=
  ∀ s ∈ deleteTypes l, s ∈ actualDestroyOrder

lemma deletesAmong_of_typed (t : String) (l : List DCall)
    (ht : TypedDeletes t l) (hmem : t ∈ actualDestroyOrder) : DeletesAmong l := by
  intro s hs
  unfold deleteTypes at hs
  obtain ⟨c, hc, hcs⟩ := List.mem_filterMap.mp hs
  cases c with
  | delete t' target =>
    simp only [Option.some.injEq] at hcs
    rw [← hcs, ht t' target hc]
    exact hmem
  | updateAsgCapacity n => simp at hcs
  | describeAsg n => simp at hcs
  | describeLB n => simp at hcs
  | describeNI n => simp at hcs
  | detachIgw g vv => simp at hcs

lemma deletesAmong_seqT {a b : StageOut} (t : String)
    (ht : TypedDeletes t a.1) (hmem : t ∈ actualDestroyOrder)
    (hb : DeletesAmong b.1) : DeletesAmong (seqT a b).1 := by
  unfold seqT
  cases a.2 with
  | some m => exact deletesAmong_of_typed t a.1 ht hmem
  | none =>
    simp only []
    intro s hs
    rw [deleteTypes_append] at hs
    rcases List.mem_append.mp hs with h1 | h1
    · exact deletesAmong_of_typed t a.1 ht hmem s h1
    · exact hb s h1

end Orchestrator

namespace Orchestrator

/-- The destroy walk's delete calls are stage-sorted and drawn from the
fixed type order, whatever rows and responses occur. -/
lemma walk_rankedFrom (o : DestroyOracle) (fuel : Nat)
    (asg_name vpc_id : Option String)
    (pol al asg lt li tg alb sg rt sub igw vpc : List ResourceRow) :
    RankedFrom 0 (seqT (policyStage asg_name pol, none)
      (seqT (simpleDelStage "cloudwatch_alarm" al, none)
      (seqT (asgStage o fuel asg)
      (seqT (simpleDelStage "launch_template" lt, none)
      (seqT (simpleDelStage "listener" li, none)
      (seqT (simpleDelStage "target_group" tg, none)
      (seqT (albStage o alb, none)
      (seqT (retryStage o.delete_security_group "security_group" sg)
      (seqT (niWaitStage o vpc_id, none)
      (seqT (retryStage o.delete_route_table "route_table" rt)
      (seqT (retryStage o.delete_subnet "subnet" sub)
      (seqT (igwStage o vpc_id igw)
            (retryStage o.delete_vpc "vpc" vpc))))))))))))).1 ∧
    DeletesAmong (seqT (policyStage asg_name pol, none)
      (seqT (simpleDelStage "cloudwatch_alarm" al, none)
      (seqT (asgStage o fuel asg)
      (seqT (simpleDelStage "launch_template" lt, none)
      (seqT (simpleDelStage "listener" li, none)
      (seqT (simpleDelStage "target_group" tg, none)
      (seqT (albStage o alb, none)
      (seqT (retryStage o.delete_security_group "security_group" sg)
      (seqT (niWaitStage o vpc_id, none)
      (seqT (retryStage o.delete_route_table "route_table" rt)
      (seqT (retryStage o.delete_subnet "subnet" sub)
      (seqT (igwStage o vpc_id igw)
            (retryStage o.delete_vpc "vpc" vpc))))))))))))).1 := by
  constructor
  · refine rankedFrom_seqT "scaling_policy" 0 1 (typedDeletes_policyStage _ _) (by decide) ?_ (by omega)
    refine rankedFrom_seqT "cloudwatch_alarm" 1 2 (typedDeletes_simple _ _) (by decide) ?_ (by omega)
    refine rankedFrom_seqT "asg" 2 3 (typedDeletes_asgStage _ _ _) (by decide) ?_ (by omega)
    refine rankedFrom_seqT "launch_template" 3 4 (typedDeletes_simple _ _) (by decide) ?_ (by omega)
    refine rankedFrom_seqT "listener" 4 5 (typedDeletes_simple _ _) (by decide) ?_ (by omega)
    refine rankedFrom_seqT "target_group" 5 6 (typedDeletes_simple _ _) (by decide) ?_ (by omega)
    refine rankedFrom_seqT "alb" 6 7 (typedDeletes_albStage _ _) (by decide) ?_ (by omega)
    refine rankedFrom_seqT "security_group" 7 8 (typedDeletes_retryStage _ _ _) (by decide) ?_ (by omega)
    refine rankedFrom_seqT "route_table" 8 8 (typedDeletes_niWaitStage _ _ _) (by decide) ?_ (by omega)
    refine rankedFrom_seqT "route_table" 8 9 (typedDeletes_retryStage _ _ _) (by decide) ?_ (by omega)
    refine rankedFrom_seqT "subnet" 9 10 (typedDeletes_retryStage _ _ _) (by decide) ?_ (by omega)
    refine rankedFrom_seqT "internet_gateway" 10 11 (typedDeletes_igwStage _ _ _) (by decide) ?_ (by omega)
    exact rankedFrom_of_typed "vpc" 11 _ (typedDeletes_retryStage _ _ _) (by decide)
  · refine deletesAmong_seqT "scaling_policy" (typedDeletes_policyStage _ _) (by decide) ?_
    refine deletesAmong_seqT "cloudwatch_alarm" (typedDeletes_simple _ _) (by decide) ?_
    refine deletesAmong_seqT "asg" (typedDeletes_asgStage _ _ _) (by decide) ?_
    refine deletesAmong_seqT "launch_template" (typedDeletes_simple _ _) (by decide) ?_
    refine deletesAmong_seqT "listener" (typedDeletes_simple _ _) (by decide) ?_
    refine deletesAmong_seqT "target_group" (typedDeletes_simple _ _) (by decide) ?_
    refine deletesAmong_seqT "alb" (typedDeletes_albStage _ _) (by decide) ?_
    refine deletesAmong_seqT "security_group" (typedDeletes_retryStage _ _ _) (by decide) ?_
    refine deletesAmong_seqT "route_table" (typedDeletes_niWaitStage _ _ _) (by decide) ?_
    refine deletesAmong_seqT "route_table" (typedDeletes_retryStage _ _ _) (by decide) ?_
    refine deletesAmong_seqT "subnet" (typedDeletes_retryStage _ _ _) (by decide) ?_
    refine deletesAmong_seqT "internet_gateway" (typedDeletes_igwStage _ _ _) (by decide) ?_
    exact deletesAmong_of_typed "vpc" _ (typedDeletes_retryStage _ _ _) (by decide)

end Orchestrator

namespace Orchestrator

lemma destroy_run_ranked (o : DestroyOracle) (st : Store) (fuel : Nat)
    (environment : String) :
    RankedFrom 0 (destroy_run o st fuel environment).trace ∧
    DeletesAmong (destroy_run o st fuel environment).trace := by
  unfold destroy_run
  cases hdep : get_deployment_id st environment with
  | none =>
    constructor
    · exact ⟨List.sorted_nil, fun r hr => by simp [deleteRanks, deleteTypes] at hr⟩
    · intro s hs
      simp [deleteTypes] at hs
  | some dep =>
    simp only []
    split
    · exact walk_rankedFrom o fuel _ _ _ _ _ _ _ _ _ _ _ _ _ _
    · exact walk_rankedFrom o fuel _ _ _ _ _ _ _ _ _ _ _ _ _ _

end Orchestrator

namespace Orchestrator

/-- C2 counterexample: for a store holding one completed deploy with
every stage's resource recorded (S0) and a provider answering every call
with success, the destroy trace violates the claimed reverse order: the
claim's creation order puts scaling-policies before alarms, so an exact
reverse would delete alarms first, but the walk deletes the scaling
policy first; and the recorded key pair never receives a delete call at
all. -/
theorem c2_counterexample :
    claimOrderOK ((S0.resources.map (fun r => r.resource_type)).eraseDups)
      (destroy_run okDestroyOracle S0 5 "dev").trace = false := by
  decide

/-- C2 as amended: `destroy` issues its delete calls in the fixed stage
order scaling-policies → alarms → autoscaling-group → launch-template →
listener → target-group → load-balancer → security-groups → route-tables
→ subnets → gateway → network (which is *not* the exact reverse of the
claimed creation order), every delete call targets one of those twelve
types, and key pairs — although created and recorded during deploy —
are never deleted. -/
theorem c2_destroy_order (o : DestroyOracle) (st : Store) (fuel : Nat)
    (environment : String) :
    (deleteRanks (destroy_run o st fuel environment).trace).Sorted (· ≤ ·) ∧
    DeletesAmong (destroy_run o st fuel environment).trace ∧
    "key_pair" ∉ deleteTypes (destroy_run o st fuel environment).trace := by
  obtain ⟨⟨hsorted, hbound⟩, hamong⟩ := destroy_run_ranked o st fuel environment
  refine ⟨hsorted, hamong, ?_⟩
  intro hm
  have hmem := hamong _ hm
  revert hmem
  decide

end Orchestrator

namespace Orchestrator

lemma seqT_snd_of_none {a b : StageOut} (h : a.2 = none) : (seqT a b).2 = b.2 := by
  unfold seqT
  rw [h]

lemma seqT_fst_of_none {a b : StageOut} (h : a.2 = none) : (seqT a b).1 = a.1 ++ b.1 := by
  unfold seqT
  rw [h]

lemma retryGo_no_abort (resp : Nat → PResp) (mR : Nat)
    (hresp : ∀ k m, resp k ≠ .otherError m) :
    ∀ fuel attempt m, (retryGo resp mR attempt fuel).why ≠ .aborted m := by
  intro fuel
  induction fuel with
  | zero => intro attempt m h; simp [retryGo] at h
  | succ f ih =>
    intro attempt m
    unfold retryGo
    cases hp : resp attempt with
    | ok => simp
    | otherError m2 => exact absurd hp (by intro hc; exact hresp attempt m2 hc)
    | clientError c =>
      simp only []
      by_cases hc : c = "DependencyViolation" ∧ attempt < mR - 1
      · rw [if_pos hc]
        simp only []
        exact ih (attempt + 1) m
      · rw [if_neg hc]
        simp

lemma retryGo_attempts_pos (resp : Nat → PResp) (mR : Nat) :
    ∀ fuel attempt, 1 ≤ fuel → 1 ≤ (retryGo resp mR attempt fuel).attempts := by
  intro fuel
  cases fuel with
  | zero => intro attempt h; omega
  | succ f =>
    intro attempt _
    unfold retryGo
    cases resp attempt with
    | ok => simp
    | otherError m => simp
    | clientError c =>
      simp only []
      by_cases hc : c = "DependencyViolation" ∧ attempt < mR - 1
      · rw [if_pos hc]
        simp only []
        omega
      · rw [if_neg hc]

lemma retryStage_ok (resp : String → Nat → PResp) (t : String)
    (hresp : ∀ i k m, resp i k ≠ .otherError m) :
    ∀ rows : List ResourceRow,
      (retryStage resp t rows).2 = none ∧
      ∀ r ∈ rows, DCall.delete t r.resource_id ∈ (retryStage resp t rows).1 := by
  intro rows
  induction rows with
  | nil =>
    constructor
    · rfl
    · intro r hr
      exact absurd hr (List.not_mem_nil r)
  | cons r rest ih =>
    have hwhy := retryGo_no_abort (resp r.resource_id) 5 (hresp r.resource_id) 5 0
    have hpos := retryGo_attempts_pos (resp r.resource_id) 5 5 0 (by omega)
    constructor
    · unfold retryStage
      simp only []
      cases hres : (retryDel (resp r.resource_id) 5).why with
      | aborted m => exact absurd hres (hwhy m)
      | success => rw [seqT_snd_of_none rfl]; exact ih.1
      | loggedErr c => rw [seqT_snd_of_none rfl]; exact ih.1
      | fellThrough => rw [seqT_snd_of_none rfl]; exact ih.1
    · intro q hq
      unfold retryStage
      simp only []
      have hmemhead : DCall.delete t r.resource_id ∈
          List.replicate (retryDel (resp r.resource_id) 5).attempts
            (DCall.delete t r.resource_id) := by
        apply List.mem_replicate.mpr
        exact ⟨by unfold retryDel; omega, rfl⟩
      cases hres : (retryDel (resp r.resource_id) 5).why with
      | aborted m => exact absurd hres (hwhy m)
      | success =>
        rw [seqT_fst_of_none rfl]
        rcases List.mem_cons.mp hq with rfl | hq'
        · exact List.mem_append_left _ hmemhead
        · exact List.mem_append_right _ (ih.2 q hq')
      | loggedErr c =>
        rw [seqT_fst_of_none rfl]
        rcases List.mem_cons.mp hq with rfl | hq'
        · exact List.mem_append_left _ hmemhead
        · exact List.mem_append_right _ (ih.2 q hq')
      | fellThrough =>
        rw [seqT_fst_of_none rfl]
        rcases List.mem_cons.mp hq with rfl | hq'
        · exact List.mem_append_left _ hmemhead
        · exact List.mem_append_right _ (ih.2 q hq')

lemma simpleDelStage_mem (t : String) (rows : List ResourceRow) (r : ResourceRow)
    (hr : r ∈ rows) : DCall.delete t r.resource_id ∈ simpleDelStage t rows :=
  List.mem_map.mpr ⟨r, hr, rfl⟩

lemma policyStage_mem (nm : String) (rows : List ResourceRow) (p : ResourceRow)
    (hp : p ∈ rows) :
    DCall.delete "scaling_policy" (p.resource_name.getD "") ∈
      policyStage (some nm) rows :=
  List.mem_map.mpr ⟨p, hp, rfl⟩

lemma albStage_mem (o : DestroyOracle) : ∀ (rows : List ResourceRow)
    (r : ResourceRow), r ∈ rows →
    DCall.delete "alb" r.resource_id ∈ albStage o rows := by
  intro rows
  induction rows with
  | nil => intro r hr; exact absurd hr (List.not_mem_nil r)
  | cons x rest ih =>
    intro r hr
    unfold albStage
    rcases List.mem_cons.mp hr with rfl | hr'
    · cases o.delete_load_balancer r.resource_id with
      | ok => exact List.mem_cons_self _ _
      | clientError c => exact List.mem_cons_self _ _
      | otherError m => exact List.mem_cons_self _ _
    · cases o.delete_load_balancer x.resource_id with
      | ok =>
        apply List.mem_cons_of_mem
        exact List.mem_append_right _ (ih r hr')
      | clientError c => exact List.mem_cons_of_mem _ (ih r hr')
      | otherError m => exact List.mem_cons_of_mem _ (ih r hr')

lemma asgStage_ok (o : DestroyOracle) (fuel : Nat) (rows : List ResourceRow)
    (hfuel : 1 ≤ fuel)
    (hupd : ∀ na, o.update_auto_scaling_group na = .ok)
    (hdesc : ∀ na k, o.describe_auto_scaling_groups na k = .ok (some 0))
    (hdelasg : ∀ na, o.delete_auto_scaling_group na = .ok) :
    (asgStage o fuel rows).2 = none ∧
    ∀ a, rows.head? = some a →
      DCall.delete "asg" a.resource_id ∈ (asgStage o fuel rows).1 := by
  unfold asgStage
  cases hh : rows.head? with
  | none => exact ⟨rfl, fun a ha => absurd ha (by simp)⟩
  | some a =>
    simp only [hupd]
    have hdrain : asgDrain (o.describe_auto_scaling_groups a.resource_id) fuel =
        DrainOut.drained 1 := by
      unfold asgDrain
      cases fuel with
      | zero => omega
      | succ f =>
        unfold asgDrainGo
        rw [hdesc a.resource_id 0]
    rw [hdrain]
    simp only [hdelasg]
    constructor
    · trivial
    · intro b hb
      cases Option.some.inj hb
      exact List.mem_append_right _ (List.mem_cons_self _ _)

end Orchestrator

namespace Orchestrator

lemma igwGo_no_abort (o : DestroyOracle) (igw : String) (v : Option String)
    (mR : Nat)
    (hdet : ∀ g vv k, o.detach_internet_gateway g vv k = .ok ∨
      o.detach_internet_gateway g vv k = .clientError "Gateway.NotAttached")
    (higw : ∀ i k m, o.delete_internet_gateway i k ≠ .otherError m) :
    ∀ fuel attempt, (igwGo o igw v mR attempt fuel).2 = none := by
  intro fuel
  induction fuel with
  | zero => intro attempt; rfl
  | succ f ih =>
    intro attempt
    unfold igwGo
    have hdelete : ∀ (tr : List DCall),
        (match o.delete_internet_gateway igw attempt with
          | PResp.ok => (tr ++ [DCall.delete "internet_gateway" igw], none)
          | PResp.clientError c =>
            if c = "DependencyViolation" ∧ attempt < mR - 1 then
              let r := igwGo o igw v mR (attempt + 1) f
              (tr ++ [DCall.delete "internet_gateway" igw] ++ r.1, r.2)
            else (tr ++ [DCall.delete "internet_gateway" igw], none)
          | PResp.otherError m => (tr ++ [DCall.delete "internet_gateway" igw], some m) :
          StageOut).2 = none := by
      intro tr
      cases hd : o.delete_internet_gateway igw attempt with
      | ok => rfl
      | clientError c =>
        simp only []
        by_cases hc : c = "DependencyViolation" ∧ attempt < mR - 1
        · rw [if_pos hc]
          exact ih (attempt + 1)
        · rw [if_neg hc]
      | otherError m => exact absurd hd (by intro hcon; exact higw igw attempt m hcon)
    cases v with
    | none =>
      simp only []
      exact hdelete []
    | some vv =>
      simp only []
      rcases hdet igw vv attempt with hok | hna
      · rw [hok]
        exact hdelete [DCall.detachIgw igw vv]
      · rw [hna]
        simp only []
        rw [if_pos trivial]
        exact hdelete [DCall.detachIgw igw vv]

lemma igwGo_mem (o : DestroyOracle) (igw : String) (v : Option String)
    (mR : Nat)
    (hdet : ∀ g vv k, o.detach_internet_gateway g vv k = .ok ∨
      o.detach_internet_gateway g vv k = .clientError "Gateway.NotAttached")
    (higw : ∀ i k m, o.delete_internet_gateway i k ≠ .otherError m) :
    ∀ fuel attempt, 1 ≤ fuel →
      DCall.delete "internet_gateway" igw ∈ (igwGo o igw v mR attempt fuel).1 := by
  intro fuel
  cases fuel with
  | zero => intro attempt h; omega
  | succ f =>
    intro attempt _
    unfold igwGo
    have hdelete : ∀ (tr : List DCall),
        DCall.delete "internet_gateway" igw ∈
        (match o.delete_internet_gateway igw attempt with
          | PResp.ok => (tr ++ [DCall.delete "internet_gateway" igw], none)
          | PResp.clientError c =>
            if c = "DependencyViolation" ∧ attempt < mR - 1 then
              let r := igwGo o igw v mR (attempt + 1) f
              (tr ++ [DCall.delete "internet_gateway" igw] ++ r.1, r.2)
            else (tr ++ [DCall.delete "internet_gateway" igw], none)
          | PResp.otherError m => (tr ++ [DCall.delete "internet_gateway" igw], some m) :
          StageOut).1 := by
      intro tr
      cases hd : o.delete_internet_gateway igw attempt with
      | ok => exact List.mem_append_right _ (List.mem_cons_self _ _)
      | clientError c =>
        simp only []
        by_cases hc : c = "DependencyViolation" ∧ attempt < mR - 1
        · rw [if_pos hc]
          simp only []
          exact List.mem_append_left _ (List.mem_append_right _ (List.mem_cons_self _ _))
        · rw [if_neg hc]
          exact List.mem_append_right _ (List.mem_cons_self _ _)
      | otherError m => exact List.mem_append_right _ (List.mem_cons_self _ _)
    cases v with
    | none =>
      simp only []
      exact hdelete []
    | some vv =>
      simp only []
      rcases hdet igw vv attempt with hok | hna
      · rw [hok]
        exact hdelete [DCall.detachIgw igw vv]
      · rw [hna]
        simp only []
        rw [if_pos trivial]
        exact hdelete [DCall.detachIgw igw vv]

lemma igwStage_ok (o : DestroyOracle) (v : Option String)
    (hdet : ∀ g vv k, o.detach_internet_gateway g vv k = .ok ∨
      o.detach_internet_gateway g vv k = .clientError "Gateway.NotAttached")
    (higw : ∀ i k m, o.delete_internet_gateway i k ≠ .otherError m) :
    ∀ rows : List ResourceRow,
      (igwStage o v rows).2 = none ∧
      ∀ r ∈ rows, DCall.delete "internet_gateway" r.resource_id ∈ (igwStage o v rows).1 := by
  intro rows
  induction rows with
  | nil => exact ⟨rfl, fun r hr => absurd hr (List.not_mem_nil r)⟩
  | cons x rest ih =>
    have hgo2 := igwGo_no_abort o x.resource_id v 5 hdet higw 5 0
    have hgomem := igwGo_mem o x.resource_id v 5 hdet higw 5 0 (by omega)
    constructor
    · unfold igwStage
      rw [seqT_snd_of_none hgo2]
      exact ih.1
    · intro r hr
      unfold igwStage
      rw [seqT_fst_of_none hgo2]
      rcases List.mem_cons.mp hr with rfl | hr'
      · exact List.mem_append_left _ hgomem
      · exact List.mem_append_right _ (ih.2 r hr')

end Orchestrator

namespace Orchestrator

/-- C6: a destroy walk whose unguarded ASG calls succeed and whose
guarded deletes fail only with `ClientError`s (in particular a security
group stuck on `DependencyViolation` until retries exhaust) runs to the
end: it reports no exception, removes every one of the deployment's
store rows (resources, then the deployment row), and issues at least one
delete attempt for every resource of every walked stage. -/
theorem c6_unconditional_cleanup (o : DestroyOracle) (st : Store) (fuel : Nat)
    (environment deployment_id : String)
    (hdep : get_deployment_id st environment = some deployment_id)
    (hfuel : 1 ≤ fuel)
    (hupd : ∀ na, o.update_auto_scaling_group na = .ok)
    (hdesc : ∀ na k, o.describe_auto_scaling_groups na k = .ok (some 0))
    (hdelasg : ∀ na, o.delete_auto_scaling_group na = .ok)
    (hsg : ∀ i k m, o.delete_security_group i k ≠ .otherError m)
    (hrt : ∀ i k m, o.delete_route_table i k ≠ .otherError m)
    (hsub : ∀ i k m, o.delete_subnet i k ≠ .otherError m)
    (hvpcD : ∀ i k m, o.delete_vpc i k ≠ .otherError m)
    (hdet : ∀ g vv k, o.detach_internet_gateway g vv k = .ok ∨
      o.detach_internet_gateway g vv k = .clientError "Gateway.NotAttached")
    (higw : ∀ i k m, o.delete_internet_gateway i k ≠ .otherError m) :
    (destroy_run o st fuel environment).result = none ∧
    (destroy_run o st fuel environment).store = delete_deployment st deployment_id ∧
    (∀ r ∈ get_resources st deployment_id,
      r.resource_type ∈ (["cloudwatch_alarm", "launch_template", "listener",
        "target_group", "alb", "security_group", "route_table", "subnet",
        "internet_gateway", "vpc"] : List String) →
      DCall.delete r.resource_type r.resource_id ∈
        (destroy_run o st fuel environment).trace) ∧
    (∀ a, ((get_resources st deployment_id).filter
        (fun r => r.resource_type = "asg")).head? = some a →
      DCall.delete "asg" a.resource_id ∈ (destroy_run o st fuel environment).trace) := by
  unfold destroy_run
  rw [hdep]
  simp only []
  split
  · rename_i msg heq
    rw [seqT_snd_of_none rfl] at heq
    rw [seqT_snd_of_none rfl] at heq
    rw [seqT_snd_of_none (asgStage_ok o fuel _ hfuel hupd hdesc hdelasg).1] at heq
    rw [seqT_snd_of_none rfl] at heq
    rw [seqT_snd_of_none rfl] at heq
    rw [seqT_snd_of_none rfl] at heq
    rw [seqT_snd_of_none rfl] at heq
    rw [seqT_snd_of_none (retryStage_ok o.delete_security_group "security_group" hsg _).1] at heq
    rw [seqT_snd_of_none rfl] at heq
    rw [seqT_snd_of_none (retryStage_ok o.delete_route_table "route_table" hrt _).1] at heq
    rw [seqT_snd_of_none (retryStage_ok o.delete_subnet "subnet" hsub _).1] at heq
    rw [seqT_snd_of_none (igwStage_ok o _ hdet higw _).1] at heq
    rw [(retryStage_ok o.delete_vpc "vpc" hvpcD _).1] at heq
    exact absurd heq (by simp)
  · rename_i heq
    refine ⟨rfl, rfl, ?_, ?_⟩
    · intro r hr htype
      simp only []
      rw [seqT_fst_of_none rfl]
      rw [seqT_fst_of_none rfl]
      rw [seqT_fst_of_none (asgStage_ok o fuel _ hfuel hupd hdesc hdelasg).1]
      rw [seqT_fst_of_none rfl]
      rw [seqT_fst_of_none rfl]
      rw [seqT_fst_of_none rfl]
      rw [seqT_fst_of_none rfl]
      rw [seqT_fst_of_none (retryStage_ok o.delete_security_group "security_group" hsg _).1]
      rw [seqT_fst_of_none rfl]
      rw [seqT_fst_of_none (retryStage_ok o.delete_route_table "route_table" hrt _).1]
      rw [seqT_fst_of_none (retryStage_ok o.delete_subnet "subnet" hsub _).1]
      rw [seqT_fst_of_none (igwStage_ok o _ hdet higw _).1]
      simp only [List.mem_cons, List.not_mem_nil, or_false] at htype
      have hfilterMem : ∀ t : String, r.resource_type = t →
          r ∈ (get_resources st deployment_id).filter
            (fun q => decide (q.resource_type = t)) := by
        intro t ht
        exact List.mem_filter.mpr ⟨hr, by simp [ht]⟩
      rcases htype with h | h | h | h | h | h | h | h | h | h
      · refine List.mem_append_right _ (List.mem_append_left _ ?_)
        rw [h]
        exact simpleDelStage_mem _ _ r (hfilterMem _ h)
      · refine List.mem_append_right _ (List.mem_append_right _
          (List.mem_append_right _ (List.mem_append_left _ ?_)))
        rw [h]
        exact simpleDelStage_mem _ _ r (hfilterMem _ h)
      · refine List.mem_append_right _ (List.mem_append_right _
          (List.mem_append_right _ (List.mem_append_right _ (List.mem_append_left _ ?_))))
        rw [h]
        exact simpleDelStage_mem _ _ r (hfilterMem _ h)
      · refine List.mem_append_right _ (List.mem_append_right _
          (List.mem_append_right _ (List.mem_append_right _ (List.mem_append_right _
            (List.mem_append_left _ ?_)))))
        rw [h]
        exact simpleDelStage_mem _ _ r (hfilterMem _ h)
      · refine List.mem_append_right _ (List.mem_append_right _
          (List.mem_append_right _ (List.mem_append_right _ (List.mem_append_right _
            (List.mem_append_right _ (List.mem_append_left _ ?_))))))
        rw [h]
        exact albStage_mem o _ r (hfilterMem _ h)
      · refine List.mem_append_right _ (List.mem_append_right _
          (List.mem_append_right _ (List.mem_append_right _ (List.mem_append_right _
            (List.mem_append_right _ (List.mem_append_right _ (List.mem_append_left _ ?_)))))))
        rw [h]
        exact (retryStage_ok o.delete_security_group "security_group" hsg _).2 r
          (hfilterMem _ h)
      · refine List.mem_append_right _ (List.mem_append_right _
          (List.mem_append_right _ (List.mem_append_right _ (List.mem_append_right _
            (List.mem_append_right _ (List.mem_append_right _ (List.mem_append_right _
              (List.mem_append_right _ (List.mem_append_left _ ?_)))))))))
        rw [h]
        exact (retryStage_ok o.delete_route_table "route_table" hrt _).2 r
          (hfilterMem _ h)
      · refine List.mem_append_right _ (List.mem_append_right _
          (List.mem_append_right _ (List.mem_append_right _ (List.mem_append_right _
            (List.mem_append_right _ (List.mem_append_right _ (List.mem_append_right _
              (List.mem_append_right _ (List.mem_append_right _ (List.mem_append_left _ ?_))))))))))
        rw [h]
        exact (retryStage_ok o.delete_subnet "subnet" hsub _).2 r (hfilterMem _ h)
      · refine List.mem_append_right _ (List.mem_append_right _
          (List.mem_append_right _ (List.mem_append_right _ (List.mem_append_right _
            (List.mem_append_right _ (List.mem_append_right _ (List.mem_append_right _
              (List.mem_append_right _ (List.mem_append_right _ (List.mem_append_right _
                (List.mem_append_left _ ?_)))))))))))
        rw [h]
        exact (igwStage_ok o _ hdet higw _).2 r (hfilterMem _ h)
      · refine List.mem_append_right _ (List.mem_append_right _
          (List.mem_append_right _ (List.mem_append_right _ (List.mem_append_right _
            (List.mem_append_right _ (List.mem_append_right _ (List.mem_append_right _
              (List.mem_append_right _ (List.mem_append_right _ (List.mem_append_right _
                (List.mem_append_right _ ?_)))))))))))
        rw [h]
        exact (retryStage_ok o.delete_vpc "vpc" hvpcD _).2 r (hfilterMem _ h)
    · intro a ha
      simp only []
      rw [seqT_fst_of_none rfl]
      rw [seqT_fst_of_none rfl]
      rw [seqT_fst_of_none (asgStage_ok o fuel _ hfuel hupd hdesc hdelasg).1]
      refine List.mem_append_right _ (List.mem_append_right _ (List.mem_append_left _ ?_))
      refine (asgStage_ok o fuel _ hfuel hupd hdesc hdelasg).2 a ?_
      simpa using ha

end Orchestrator

namespace Orchestrator

/-- A destroy-walk provider where every security-group delete keeps
answering `DependencyViolation` (so its retries always exhaust) and
everything else succeeds. -/
def sgStuckOracle : DestroyOracle :=
  { okDestroyOracle with
    delete_security_group := fun _ _ => .clientError "DependencyViolation" }

theorem c6_witness :
    (destroy_run sgStuckOracle S0 5 "dev").result = none ∧
    (destroy_run sgStuckOracle S0 5 "dev").store =
      { deployments := [], resources := [] } ∧
    DCall.delete "security_group" "sg-alb" ∈ (destroy_run sgStuckOracle S0 5 "dev").trace ∧
    DCall.delete "vpc" "vpc-1" ∈ (destroy_run sgStuckOracle S0 5 "dev").trace ∧
    DCall.delete "asg" "webapp-asg-dev" ∈ (destroy_run sgStuckOracle S0 5 "dev").trace := by
  have h := c6_unconditional_cleanup sgStuckOracle S0 5 "dev" "d1" rfl (by omega)
    (fun _ => rfl) (fun _ _ => rfl) (fun _ => rfl)
    (fun i k m hc => by simp [sgStuckOracle, okDestroyOracle] at hc)
    (fun i k m hc => by simp [sgStuckOracle, okDestroyOracle] at hc)
    (fun i k m hc => by simp [sgStuckOracle, okDestroyOracle] at hc)
    (fun i k m hc => by simp [sgStuckOracle, okDestroyOracle] at hc)
    (fun _ _ _ => Or.inl rfl)
    (fun i k m hc => by simp [sgStuckOracle, okDestroyOracle] at hc)
  refine ⟨h.1, ?_, ?_, ?_, ?_⟩
  · rw [h.2.1]
    rfl
  · exact h.2.2.1 (mkRow "security_group" "sg-alb" (some "alb-sg")) (by decide) (by decide)
  · exact h.2.2.1 (mkRow "vpc" "vpc-1" (some "webapp-vpc-dev")) (by decide) (by decide)
  · exact h.2.2.2 (mkRow "asg" "webapp-asg-dev" (some "webapp-asg-dev")) (by decide)

end Orchestrator
